import Mathlib

/-!
Verification of the standings/statistics computation and seeding engine of
`auf-analyzer` (`backend/auf_analyzer/storage/db.py`).

This file shallowly embeds the relevant parts of the storage module:

* `_round_robin` (circle-method scheduler) as `roundRobin`;
* `_build_round_robin_schedule` / `_build_intermedio_schedule` (fixture and
  score generation) over an explicit model of the seeded random source;
* `_build_and_store_standings` (per-stage fold, annual roll-up, derived
  fields, ranking sort) as `standingsData` / `anualTable` / `storedRows`;
* `compute_table`, `list_scorers`, `cards_by_team`, `discipline_table`
  (read-only queries) as Lean functions over an explicit store value;
* `_insert_players` / `seed_database` (player insertion with the
  placeholder-name check, and the per-step commit behaviour of seeding).

Machine integers are modelled as `Int`/`Nat` (Python integers are unbounded,
so no wrap-around is involved); Python `float` results produced by
`round(x, 2)` are modelled over `ℚ` with round-half-up (`round2`); the two
disagree only at exact half-tie arguments under binary floating point, which
none of the verified statements touch.
-/

namespace AufSpec

/-- Team row as used by the standings builder and the queries
(`SELECT id, name, logo_key FROM teams`); the remaining columns of the
`teams` table play no role in the embedded functions. -/
structure TeamRow where
  id : Int
  name : String
  logo_key : String
deriving DecidableEq

/-- Mirrors the `MatchResult` dataclass of `db.py`. -/
structure MatchResult where
  match_id : Int
  season_year : Int
  stage_code : String
  home_team_id : Int
  away_team_id : Int
  home_goals : Nat
  away_goals : Nat
  date : String
deriving DecidableEq

/-- The six per-team counting fields accumulated by
`_build_and_store_standings` before derived fields are computed. -/
structure Counts where
  mp : Nat
  w : Nat
  d : Nat
  l : Nat
  gf : Nat
  ga : Nat
deriving DecidableEq

/-- The all-zero bucket every team starts from
(`{"mp": 0, "w": 0, "d": 0, "l": 0, "gf": 0, "ga": 0}`). -/
def initCounts : Counts := ⟨0, 0, 0, 0, 0, 0⟩

/-- One side's update for one match: `mp += 1; gf += gf_m; ga += ga_m;`
then `w`/`d`/`l` by strict comparison of the match goals, exactly as the
`if gf > ga / elif gf == ga / else` chain in the fold. -/
def updateCounts (c : Counts) (gf ga : Nat) : Counts :=
  { mp := c.mp + 1
    w := c.w + (if gf > ga then 1 else 0)
    d := c.d + (if gf = ga then 1 else 0)
    l := c.l + (if gf < ga then 1 else 0)
    gf := c.gf + gf
    ga := c.ga + ga }

/-- A per-stage table, team id to counting fields. Python stores this as a
dict keyed by every id of `team_names`; the function representation agrees
with it on those ids (the fold never touches other ids for the seeded data,
where every match references known teams). -/
def StageTable : Type := Int → Counts

/-- Point update of one team's bucket inside a stage table. -/
def applyMatch (tbl : StageTable) (tid : Int) (gf ga : Nat) : StageTable :=
  fun t => if t = tid then updateCounts (tbl tid) gf ga else tbl t

/-- Both sides' updates for one match, home side first, as in the
`for team_id, gf, ga, is_home in [...]` loop of the fold. -/
def foldMatchInto (tbl : StageTable) (m : MatchResult) : StageTable :=
  applyMatch (applyMatch tbl m.home_team_id m.home_goals m.away_goals)
    m.away_team_id m.away_goals m.home_goals

/-- The `standings_data` dictionary after the fold over all matches:
buckets are keyed by `(season_year, stage_code)` and every bucket starts
all-zero (the three pre-seeded stage buckets and the on-demand ones are
all created from the same all-zero template). -/
def standingsData (ms : List MatchResult) : Int × String → StageTable :=
  ms.foldl
    (fun buckets m key =>
      if key = (m.season_year, m.stage_code) then foldMatchInto (buckets key) m
      else buckets key)
    (fun _ => fun _ => initCounts)

/-- Fieldwise sum of two counting buckets. -/
def addCounts (a b : Counts) : Counts :=
  ⟨a.mp + b.mp, a.w + b.w, a.d + b.d, a.l + b.l, a.gf + b.gf, a.ga + b.ga⟩

/-- The annual roll-up: for each team, the sum of the `apertura` and
`clausura` counting fields for the season
(`for stage in ["apertura", "clausura"]: target[key] += stats[key]`). -/
def anualTable (sd : Int × String → StageTable) (season : Int) : StageTable :=
  fun t => addCounts (sd (season, "apertura") t) (sd (season, "clausura") t)

/-- Round a rational to two decimal places, modelling Python `round(x, 2)`.
Python rounds a float half-to-even; this rounds half-up. The two agree on
every argument that is not an exact two-decimal half-tie after binary
conversion, which covers all values appearing in the verified statements. -/
def round2 (q : ℚ) : ℚ := ((round (q * 100) : ℤ) : ℚ) / 100

/-- One persisted `standings` row; field order and names follow the table
schema. The `last5`, `top_scorer`, `goalkeeper` and `avg_attendance`
columns are filled from auxiliary queries (`_last5_strings` etc.) that the
claims under verification do not constrain; they enter the builder below as
opaque-to-the-claims function parameters. -/
structure StandingRow where
  season_year : Int
  stage_code : String
  team_id : Int
  mp : Nat
  w : Nat
  d : Nat
  l : Nat
  gf : Nat
  ga : Nat
  gd : Int
  pts : Nat
  ppg : ℚ
  last5 : String
  top_scorer : String
  goalkeeper : String
  avg_attendance : ℚ
deriving DecidableEq

/-- The row built for one team from its counting bucket:
`gd = gf - ga`, `pts = w*3 + d`, `mp_div = mp or 1`, `ppg = round(pts/mp_div, 2)`. -/
def mkRow (season : Int) (stage : String) (tid : Int) (c : Counts)
    (last5 ts gk : Int → String) (att : Int → ℚ) : StandingRow :=
  { season_year := season
    stage_code := stage
    team_id := tid
    mp := c.mp
    w := c.w
    d := c.d
    l := c.l
    gf := c.gf
    ga := c.ga
    gd := (c.gf : Int) - (c.ga : Int)
    pts := c.w * 3 + c.d
    ppg := round2 (((c.w * 3 + c.d : Nat) : ℚ) / ((if c.mp = 0 then 1 else c.mp : Nat) : ℚ))
    last5 := last5 tid
    top_scorer := ts tid
    goalkeeper := gk tid
    avg_attendance := att tid }

/-- Display name of a team id (`team_names.get(r[2], "")`). -/
def nameOf (teams : List TeamRow) (tid : Int) : String :=
  ((teams.find? (fun t => t.id = tid)).map (fun t => t.name)).getD ""

/-- The comparison behind `rows.sort(key=lambda r: (-pts, -gd, -gf, name))`:
lexicographic on (points descending, goal difference descending, goals-for
descending, team display name ascending). Python's stable sort under this
tuple key produces the same list as any stable sort under this non-strict
comparison; the embedding uses the (stable) insertion sort. -/
def rankKeyLE (names : Int → String) (a b : StandingRow) : Prop :=
  if a.pts = b.pts then
    if a.gd = b.gd then
      if a.gf = b.gf then names a.team_id ≤ names b.team_id
      else b.gf < a.gf
    else b.gd < a.gd
  else b.pts < a.pts

instance rankKeyLE.instDecidable (names : Int → String) :
    DecidableRel (rankKeyLE names) := fun a b => by
  unfold rankKeyLE; infer_instance

/-- The list of rows persisted for one `(season, stage)` bucket: one row per
team of the store (`for team_id, stats in table.items()`), sorted (stably)
by the ranking key. -/
def stageRows (teams : List TeamRow) (season : Int) (stage : String)
    (tbl : StageTable) (last5 ts gk : Int → String) (att : Int → ℚ) :
    List StandingRow :=
  (teams.map (fun t => mkRow season stage t.id (tbl t.id) last5 ts gk att)).insertionSort
    (rankKeyLE (nameOf teams))

/-- The persisted standings table for `(season, stage)` after
`_build_and_store_standings conn season ms`: the `anual` bucket is the
annual roll-up, every other stage reads its own fold bucket. -/
def storedRows (teams : List TeamRow) (season : Int) (ms : List MatchResult)
    (stage : String) (last5 ts gk : Int → String) (att : Int → ℚ) :
    List StandingRow :=
  let sd := standingsData ms
  let tbl := if stage = "anual" then anualTable sd season else sd (season, stage)
  stageRows teams season stage tbl last5 ts gk att

/-- One row of the dict list returned by `compute_table`, with the
backward-compatible alias keys (`gc`, `pj`, `pg`, `pe`, `pp`, `dg`). -/
structure TableRow where
  pos : Nat
  team : String
  team_id : Int
  logo_key : String
  mp : Nat
  w : Nat
  d : Nat
  l : Nat
  gf : Nat
  ga : Nat
  gc : Nat
  gd : Int
  pts : Nat
  ppg : ℚ
  last5 : String
  avg_attendance : ℚ
  pj : Nat
  pg : Nat
  pe : Nat
  pp : Nat
  dg : Int
deriving DecidableEq

/-- The full return value of `compute_table`. -/
structure TableOut where
  season : Int
  stage : String
  rows : List TableRow
  updated_at : String
  source : String
deriving DecidableEq

/-- The `ORDER BY pts DESC, gd DESC, gf DESC, team ASC` comparison of the
`compute_table` query, on standings rows joined with their team row. -/
def tableLE (a b : StandingRow × TeamRow) : Prop :=
  if a.1.pts = b.1.pts then
    if a.1.gd = b.1.gd then
      if a.1.gf = b.1.gf then a.2.name ≤ b.2.name
      else b.1.gf < a.1.gf
    else b.1.gd < a.1.gd
  else b.1.pts < a.1.pts

instance tableLE.instDecidable : DecidableRel tableLE := fun a b => by
  unfold tableLE; infer_instance

/-- Normalization of one joined row at 1-based position `pos`. -/
def mkTableRow (pos : Nat) (rt : StandingRow × TeamRow) : TableRow :=
  { pos := pos
    team := rt.2.name
    team_id := rt.1.team_id
    logo_key := rt.2.logo_key
    mp := rt.1.mp
    w := rt.1.w
    d := rt.1.d
    l := rt.1.l
    gf := rt.1.gf
    ga := rt.1.ga
    gc := rt.1.ga
    gd := rt.1.gd
    pts := rt.1.pts
    ppg := rt.1.ppg
    last5 := rt.1.last5
    avg_attendance := rt.1.avg_attendance
    pj := rt.1.mp
    pg := rt.1.w
    pe := rt.1.d
    pp := rt.1.l
    dg := rt.1.gd }

/-- Embedding of `compute_table(season, stage)`: select the persisted
standings rows of `(season, stage)`, join each with its team row, order by
the ranking key, and enumerate positions from 1. The wall-clock reading
`datetime.utcnow().isoformat()` is the explicit `now` input. -/
def computeTable (stored : List StandingRow) (teams : List TeamRow)
    (season : Int) (stage : String) (now : String) : TableOut :=
  let joined :=
    (stored.filter (fun r => decide (r.season_year = season) && decide (r.stage_code = stage))).filterMap
      (fun r => (teams.find? (fun t => t.id = r.team_id)).map (fun t => (r, t)))
  let sorted := joined.insertionSort tableLE
  { season := season
    stage := stage
    rows := sorted.mapIdx (fun i rt => mkTableRow (i + 1) rt)
    updated_at := now
    source := "seed" }

/-- Columns of the `matches` table read by the embedded queries; the table
also carries round/date/time/goals/xg/attendance/venue/referee columns that
none of the embedded queries consult. -/
structure MatchRow where
  id : Int
  season_year : Int
  stage_code : String
  home_team_id : Int
  away_team_id : Int
deriving DecidableEq

/-- One `match_events` row. -/
structure EventRow where
  match_id : Int
  minute : Nat
  team_id : Int
  player_id : Option Int
  type : String
  detail : String
deriving DecidableEq

/-- One `players` row. -/
structure PlayerRow where
  id : Int
  full_name : String
  team_id : Int
  position : Option String
  nationality : Option String
  birth_year : Option Int
deriving DecidableEq

/-- The persisted relational state read by the query layer. -/
structure Store where
  teams : List TeamRow
  players : List PlayerRow
  matchRows : List MatchRow
  events : List EventRow
deriving DecidableEq

/-- Embedding of `_stages_for_query`: `anual` expands to its two underlying
stages, every other stage expands to itself. -/
def stagesForQuery (stage : String) : List String :=
  if stage = "anual" then ["apertura", "clausura"] else [stage]

/-- The `JOIN matches ... WHERE m.season_year = ? AND m.stage_code IN (...)`
condition shared by the event-based queries. -/
def eventInStage (st : Store) (season : Int) (stages : List String)
    (e : EventRow) : Bool :=
  st.matchRows.any (fun m =>
    decide (m.id = e.match_id) && decide (m.season_year = season) &&
      stages.contains m.stage_code)

/-- One row of the `list_scorers` result. -/
structure ScorerRow where
  player_id : Int
  player : String
  team_id : Int
  team : String
  goals : Nat
deriving DecidableEq

/-- Number of goal-type events credited to player `p` over the stage-expanded
matches (the `COUNT(*)` of the scorers group of `p`). -/
def goalCount (st : Store) (season : Int) (stages : List String)
    (p : PlayerRow) : Nat :=
  (st.events.filter (fun e =>
    decide (e.type = "goal") && decide (e.player_id = some p.id) &&
      eventInStage st season stages e)).length

/-- The `ORDER BY goals DESC, player ASC` comparison of `list_scorers`.
Rows equal on both keys have no order specified by the query; the sort
fixes one, and no verified statement depends on it. -/
def scorerLE (a b : ScorerRow) : Prop :=
  if a.goals = b.goals then a.player ≤ b.player
  else b.goals < a.goals

instance scorerLE.instDecidable : DecidableRel scorerLE := fun a b => by
  unfold scorerLE; infer_instance

/-- Embedding of `list_scorers(season, stage, top)`: goal events joined with
their match, scoring player and that player's team; grouped per player
(inner joins drop events with no/unknown player or unknown team, and a
group exists exactly when its count is positive); ordered by goal count
descending then player name ascending; truncated to `top`. -/
def listScorers (st : Store) (season : Int) (stage : String) (top : Nat) :
    List ScorerRow :=
  let stages := stagesForQuery stage
  let groups := st.players.filterMap (fun p =>
    match st.teams.find? (fun t => t.id = p.team_id) with
    | none => none
    | some t =>
      let g := goalCount st season stages p
      if g = 0 then none
      else some { player_id := p.id, player := p.full_name, team_id := t.id,
                  team := t.name, goals := g })
  (groups.insertionSort scorerLE).take top

/-- The FastAPI boundary check on the `top` query parameter of `/scorers`
(`top: int = Query(20, ge=1, le=100)`). -/
def apiScorersTopValid (top : Int) : Bool :=
  decide (1 ≤ top) && decide (top ≤ 100)

/-- One row of the `cards_by_team` result. -/
structure CardRow where
  team_id : Int
  team : String
  logo_key : String
  yellow : Nat
  red : Nat
deriving DecidableEq

/-- All events of team `tid` lying in the stage-expanded matches: the rows
of the `cards_by_team` group of that team. -/
def teamEvents (st : Store) (season : Int) (stages : List String)
    (tid : Int) : List EventRow :=
  st.events.filter (fun e =>
    decide (e.team_id = tid) && eventInStage st season stages e)

/-- Embedding of `cards_by_team(conn, season, stage)`: one row per team with
at least one event of any type in the stage-expanded matches (an inner-join
group), with conditional sums counting only `yellow` / `red` events, ordered
by team name. -/
def cardsByTeam (st : Store) (season : Int) (stage : String) : List CardRow :=
  let stages := stagesForQuery stage
  let rows := st.teams.filterMap (fun t =>
    let es := teamEvents st season stages t.id
    if es.isEmpty then none
    else some { team_id := t.id, team := t.name, logo_key := t.logo_key,
                yellow := (es.filter (fun e => decide (e.type = "yellow"))).length,
                red := (es.filter (fun e => decide (e.type = "red"))).length })
  rows.insertionSort (fun a b => a.team ≤ b.team)

/-- The per-name match count of `discipline_table`: the size of the group of
`name` in the query joining matches with teams on
`home_team_id = t.id OR away_team_id = t.id`, grouped by team name. -/
def matchCountByName (st : Store) (season : Int) (stages : List String)
    (name : String) : Nat :=
  (st.matchRows.filter (fun m =>
    decide (m.season_year = season) && stages.contains m.stage_code)).foldl
    (fun acc m => acc +
      (st.teams.filter (fun t =>
        decide (t.name = name) &&
          (decide (m.home_team_id = t.id) || decide (m.away_team_id = t.id)))).length)
    0

/-- One row of `discipline_table`; the Lean field names stand for the
Spanish dict keys `Equipo`, `PJ`, `Amarillas`, `Rojas`,
`Tarjetas totales`, `Tarjetas/partido`. -/
structure DisciplineRow where
  equipo : String
  pj : Nat
  amarillas : Nat
  rojas : Nat
  total : Nat
  per_game : ℚ
deriving DecidableEq

/-- Embedding of `discipline_table(season, stage)`: enrich every
`cards_by_team` row with the match count and per-game card rate
(`round(total/pj, 2) if pj else 0`). -/
def disciplineTable (st : Store) (season : Int) (stage : String) :
    List DisciplineRow :=
  (cardsByTeam st season stage).map (fun row =>
    let pj := matchCountByName st season (stagesForQuery stage) row.team
    let total := row.yellow + row.red
    { equipo := row.team, pj := pj, amarillas := row.yellow,
      rojas := row.red, total := total,
      per_game := if pj = 0 then 0 else round2 ((total : ℚ) / (pj : ℚ)) })

/-- Embedding of `_round_robin`'s bye injection: append the `-1` sentinel
when the participant count is odd. -/
def addBye (team_ids : List Int) : List Int :=
  if team_ids.length % 2 = 1 then team_ids ++ [-1] else team_ids

/-- Embedding of one `ids = [ids[0]] + [ids[-1]] + ids[1:-1]` step: keep the
head fixed and rotate the rest one position to the right
(`rest.rotate (rest.length - 1)` is `[last] ++ all-but-last`). The loop of
`_round_robin` only applies this to even-length lists of length at least 2,
where the two agree. -/
def rotateOnce : List Int → List Int
  | [] => []
  | a :: rest => a :: rest.rotate (rest.length - 1)

/-- Embedding of one round of `_round_robin`: slot `j` pairs positions `j`
and `n-1-j` for `j < n/2`, pairs touching the `-1` bye are skipped, and the
orientation is reversed when `swap` holds (odd round index). -/
def roundPairings (swap : Bool) (ids : List Int) : List (Int × Int) :=
  (List.range (ids.length / 2)).filterMap (fun j =>
    let home := ids.getD j 0
    let away := ids.getD (ids.length - 1 - j) 0
    if home = -1 || away = -1 then none
    else if swap then some (away, home) else some (home, away))

/-- The `for i in range(n - 1)` loop of `_round_robin`: emit the current
round, then rotate. -/
def roundRobinAux : Nat → Nat → List Int → List (List (Int × Int))
  | 0, _, _ => []
  | k + 1, i, ids =>
      roundPairings (decide (i % 2 = 1)) ids :: roundRobinAux k (i + 1) (rotateOnce ids)

/-- Embedding of `_round_robin(team_ids)`. -/
def roundRobin (team_ids : List Int) : List (List (Int × Int)) :=
  let ids := addBye team_ids
  roundRobinAux (ids.length - 1) 0 ids

/-- Unordered membership of the unordered pair (x, y) in a round's pairing list. -/
def pairMem (x y : Int) (ps : List (Int × Int)) : Bool :=
  ps.any (fun p => (p.1 == x && p.2 == y) || (p.1 == y && p.2 == x))

/-- `x` is an endpoint of the pairing `p`. -/
def touches (x : Int) (p : Int × Int) : Bool := p.1 == x || p.2 == x

/-- Home entry of slot `j` in round `i` of the circle schedule on `a :: t`:
position `0` is the fixed participant `a`, position `p + 1` of round `i`
holds `t[(p + i*(|t|-1)) % |t|]`. -/
def circleHome (a : Int) (t : List Int) (i j : Nat) : Int :=
  if j = 0 then a else t.getD ((j - 1 + i * (t.length - 1)) % t.length) 0

/-- Away entry of slot `j` in round `i` of the circle schedule on `a :: t`:
the participant at position `n - 1 - j`. -/
def circleAway (t : List Int) (i j : Nat) : Int :=
  t.getD ((t.length - 1 - j + i * (t.length - 1)) % t.length) 0

/-- The optional pairing emitted by slot `j` of a round. -/
def circleSlot (swap : Bool) (a : Int) (t : List Int) (i j : Nat) :
    Option (Int × Int) :=
  if circleHome a t i j = -1 || circleAway t i j = -1 then none
  else if swap then some (circleAway t i j, circleHome a t i j)
  else some (circleHome a t i j, circleAway t i j)

/-- Iterated single-step rotation of the scheduler's working list. -/
def rotIter : Nat → List Int → List Int
  | 0, l => l
  | j + 1, l => rotIter j (rotateOnce l)

/-- Model of the seeded `random.Random` source: an arbitrary rational
stream consumed one position per call. Every generator method used by the
schedule builders consumes exactly one draw, keeping call order explicit. -/
structure Rng where
  stream : Nat → ℚ
  pos : Nat

/-- Advance the source by one consumed draw. -/
def Rng.next (r : Rng) : Rng := { r with pos := r.pos + 1 }

/-- Clamp a raw draw into `[0, 1]`. -/
def clamp01 (q : ℚ) : ℚ := max 0 (min 1 q)

/-- Model of `rng.randint(a, b)`: an arbitrary-but-stream-determined integer
in `[a, b]` (inclusive on both ends, as in Python). -/
def Rng.randint (r : Rng) (a b : Nat) : Nat × Rng :=
  (a + (r.stream r.pos).floor.toNat % (b + 1 - a), r.next)

/-- Model of `rng.uniform(a, b)`: a stream-determined rational in `[a, b]`. -/
def Rng.uniform (r : Rng) (a b : ℚ) : ℚ × Rng :=
  (a + (b - a) * clamp01 (r.stream r.pos), r.next)

/-- Model of `rng.choice(options)` for a list of strings. -/
def Rng.choice (r : Rng) (options : List String) : String × Rng :=
  (options.getD ((r.stream r.pos).floor.toNat % options.length) "", r.next)

/-- The fixed kickoff pool `KICKOFF_TIMES`. -/
def kickoffTimes : List String := ["15:00", "16:00", "18:00", "20:30"]

/-- One generated fixture dict. Calendar dates are represented as integer
day numbers (`startDate + 7 * (idx - 1)`), which is all the builders do
with them. -/
structure Fixture where
  round : String
  date : Int
  time : String
  home : Int
  away : Int
  home_goals : Nat
  away_goals : Nat
deriving DecidableEq

/-- The loop body of `_build_round_robin_schedule` for one pairing: draw the
home-advantage uniform, the base goals, the away goals, then the kickoff
time, and apply `+1` to the home goals exactly when the uniform draw
exceeds `0.6`. -/
def rrFixture (idx : Nat) (roundDate : Int) (hm aw : Int) (r : Rng) :
    Fixture × Rng :=
  let u := r.uniform 0 1
  let b := u.2.randint 0 3
  let homeGoals := b.1 + (if (3 : ℚ) / 5 < u.1 then 1 else 0)
  let a := b.2.randint 0 3
  let time := a.2.choice kickoffTimes
  ({ round := toString idx, date := roundDate, time := time.1, home := hm,
     away := aw, home_goals := homeGoals, away_goals := a.1 }, time.2)

/-- The inner pairing loop of `_build_round_robin_schedule` for one round. -/
def rrRound (idx : Nat) (roundDate : Int) :
    List (Int × Int) → Rng → List Fixture × Rng
  | [], r => ([], r)
  | (hm, aw) :: rest, r =>
    let f := rrFixture idx roundDate hm aw r
    let fs := rrRound idx roundDate rest f.2
    (f.1 :: fs.1, fs.2)

/-- The `enumerate(rounds, start=1)` loop of `_build_round_robin_schedule`. -/
def rrRounds (idx : Nat) (startDate : Int) :
    List (List (Int × Int)) → Rng → List Fixture × Rng
  | [], r => ([], r)
  | pairings :: rest, r =>
    let fs := rrRound idx (startDate + 7 * ((idx : Int) - 1)) pairings r
    let more := rrRounds (idx + 1) startDate rest fs.2
    (fs.1 ++ more.1, more.2)

/-- Embedding of `_build_round_robin_schedule(team_ids, season, rng,
start_date)`; the `season` argument is unused by the source body, the start
date enters as a day number. -/
def buildRoundRobinSchedule (team_ids : List Int) (startDate : Int)
    (r : Rng) : List Fixture × Rng :=
  rrRounds 1 startDate (roundRobin team_ids) r

/-- The loop body of `_build_intermedio_schedule` for one pairing: the
kickoff time is drawn first (dict construction order), then home and away
goals, each plain `randint(0, 3)` with no home-advantage increment. -/
def imFixture (roundLabel : String) (roundDate : Int) (hm aw : Int)
    (r : Rng) : Fixture × Rng :=
  let time := r.choice kickoffTimes
  let hg := time.2.randint 0 3
  let ag := hg.2.randint 0 3
  ({ round := roundLabel, date := roundDate, time := time.1, home := hm,
     away := aw, home_goals := hg.1, away_goals := ag.1 }, ag.2)

/-- The inner pairing loop of `_build_intermedio_schedule` for one round. -/
def imRound (idx : Nat) (roundDate : Int) :
    List (Int × Int) → Rng → List Fixture × Rng
  | [], r => ([], r)
  | (hm, aw) :: rest, r =>
    let f := imFixture (toString idx) roundDate hm aw r
    let fs := imRound idx roundDate rest f.2
    (f.1 :: fs.1, fs.2)

/-- The per-group round loop of `_build_intermedio_schedule`. -/
def imRounds (idx : Nat) (startDate : Int) :
    List (List (Int × Int)) → Rng → List Fixture × Rng
  | [], r => ([], r)
  | pairings :: rest, r =>
    let fs := imRound idx (startDate + 7 * ((idx : Int) - 1)) pairings r
    let more := imRounds (idx + 1) startDate rest fs.2
    (fs.1 ++ more.1, more.2)

/-- Embedding of `_build_intermedio_schedule(team_ids, season, rng)`: split
the sorted ids into two groups of up to 8, run a round-robin inside each,
then append the cross-group `Final` fixture; `startDate` is the day number
of `datetime(season, 6, 5)`. -/
def buildIntermedioSchedule (team_ids : List Int) (startDate : Int)
    (r : Rng) : List Fixture × Rng :=
  let ids := team_ids.insertionSort (fun a b => a ≤ b)
  let ga := ids.take 8
  let gb := ids.drop 8
  let fa := imRounds 1 startDate (roundRobin ga) r
  let fb := imRounds 1 startDate (roundRobin gb) fa.2
  let f := imFixture "Final" (startDate + 7 * 8) (ga.headD 0) (gb.headD 0) fb.2
  (fa.1 ++ fb.1 ++ [f.1], f.2)

/-- Mirrors the `Team` dataclass loaded from the `teams.json` seed. -/
structure Team where
  id : Int
  name : String
  short_name : String
  city : String
  stadium : String
  logo_key : String
  is_placeholder : Bool
deriving DecidableEq

/-- One roster player entry from a `rosters_<season>.json` seed. -/
structure PlayerEntry where
  full_name : String
  position : Option String
  nationality : Option String
  birth_year : Option Int
deriving DecidableEq

/-- One roster team entry (`team_entry["name"]` with its player list);
a roster value is the `roster.items()` iteration of `_insert_players`. -/
structure RosterTeam where
  name : String
  players : List PlayerEntry
deriving DecidableEq

/-- Substring test on character lists, modelling Python's `needle in hay`. -/
def hasSub (needle : List Char) : List Char → Bool
  | [] => decide (needle = [])
  | c :: rest => needle.isPrefixOf (c :: rest) || hasSub needle rest

/-- The hard invariant check of `_insert_players`:
`"placeholder" in name.lower()`; lower-casing is applied per character
(the roster names are ASCII, where this agrees with Python `str.lower`). -/
def containsPlaceholder (name : String) : Bool :=
  hasSub "placeholder".data (name.data.map Char.toLower)

/-- The 3-letter to 2-letter country code map of `_normalize_nationality`. -/
def map3to2 : List (String × String) :=
  [("URU", "UY"), ("ARG", "AR"), ("BRA", "BR"),
   ("COL", "CO"), ("PAR", "PY"), ("CHI", "CL")]

/-- Embedding of `_normalize_nationality`. -/
def normalizeNationality (code : Option String) : Option String :=
  match code with
  | none => none
  | some c =>
    if c = "" then none
    else
      let normalized := c.trim.toUpper
      if normalized.length = 3 then
        match map3to2.lookup normalized with
        | some two => some two
        | none => if normalized.length = 2 then some normalized else some (normalized.take 2)
      else if normalized.length = 2 then some normalized
      else some (normalized.take 2)

/-- One tuple prepared for insertion into the `players` table. -/
structure NewPlayer where
  full_name : String
  team_id : Int
  position : Option String
  nationality : Option String
  birth_year : Option Int
deriving DecidableEq

/-- The `team_lookup = {t.name: t.id for t in teams}` dictionary: for a
duplicated name, the last team wins. -/
def teamLookup (teams : List Team) (name : String) : Option Int :=
  ((teams.filter (fun t => t.name = name)).getLast?).map (fun t => t.id)

/-- The per-team row-building loop of `_insert_players`: the placeholder
check fires on the first offending player, before its row is built. -/
def buildPlayerRows (tid : Int) : List PlayerEntry → Except String (List NewPlayer)
  | [] => .ok []
  | p :: rest =>
    if containsPlaceholder p.full_name then
      .error "Seed inválida: nombre Placeholder detectado"
    else
      (buildPlayerRows tid rest).map
        (fun rs => ⟨p.full_name, tid, p.position,
                    normalizeNationality p.nationality, p.birth_year⟩ :: rs)

/-- Embedding of `_insert_players`' roster iteration: roster teams whose
name resolves to no team id — or to the falsy id `0` — are skipped without
touching their players; otherwise the team's rows are built (raising on a
placeholder name) and accumulated. On success the accumulated rows are the
ones committed at the end of `_insert_players`; on an exception nothing of
this call is committed (the commit at the end of the function is never
reached). -/
def insertPlayers (teams : List Team) : List RosterTeam → Except String (List NewPlayer)
  | [] => .ok []
  | rt :: rest =>
    match teamLookup teams rt.name with
    | none => insertPlayers teams rest
    | some tid =>
      if tid = 0 then insertPlayers teams rest
      else
        match buildPlayerRows tid rt.players with
        | .error e => .error e
        | .ok rows => (insertPlayers teams rest).map (fun more => rows ++ more)

/-- The `stages` seed rows (`STAGE_NAMES`). -/
def stageNames : List (String × String) :=
  [("apertura", "Torneo Apertura"), ("clausura", "Torneo Clausura"),
   ("intermedio", "Torneo Intermedio"), ("anual", "Tabla Anual")]

/-- The `SCHEMA_VERSION` constant. -/
def schemaVersionConst : Nat := 3

/-- The committed contents of the store file as seen through the explicit
`conn.commit()` calls of seeding. The per-season match/event/stat/standings
payload is abstracted to the list of seasons whose simulation completed and
was committed (`seasonsSeeded`); its contents are covered by the standings
and query embeddings above and play no role in the error-path claims. -/
structure CommittedStore where
  teams : List Team
  seasons : List Int
  stages : List (String × String)
  players : List NewPlayer
  seasonsSeeded : List Int
  schemaVersion : Option Nat
deriving DecidableEq

/-- The per-season loop of `seed_database`: `_insert_players` commits its
rows at its end, the season's simulated data is committed by the
`_persist_*` / `_build_and_store_standings` calls; an exception stops the
loop with the store as committed so far. -/
def seedLoop (teams : List Team) :
    List (Int × List RosterTeam) → CommittedStore → CommittedStore × Option String
  | [], acc => (acc, none)
  | (season, roster) :: rest, acc =>
    match insertPlayers teams roster with
    | .error e => (acc, some e)
    | .ok rows =>
      seedLoop teams rest
        { acc with players := acc.players ++ rows,
                   seasonsSeeded := acc.seasonsSeeded ++ [season] }

/-- Embedding of `seed_database(conn)` at the commit level: the base rows
(teams, seasons, stages) are committed by `_insert_base_rows` before any
roster is read; the schema-version marker is committed only after every
season seeded successfully. The second component is the raised error, if
any. -/
def seedDatabase (teams : List Team)
    (rosters : List (Int × List RosterTeam)) : CommittedStore × Option String :=
  let base : CommittedStore :=
    { teams := teams, seasons := rosters.map Prod.fst, stages := stageNames,
      players := [], seasonsSeeded := [], schemaVersion := none }
  match seedLoop teams rosters base with
  | (acc, some e) => (acc, some e)
  | (acc, none) => ({ acc with schemaVersion := some schemaVersionConst }, none)

/-! ### Helper lemmas on the ranking comparisons -/

instance rankKeyLE.instIsTrans (names : Int → String) :
    IsTrans StandingRow (rankKeyLE names) := by
  constructor
  intro a b c hab hbc
  unfold rankKeyLE at hab hbc ⊢
  split_ifs at hab hbc ⊢ <;>
    first
      | omega
      | exact le_trans hab hbc

instance rankKeyLE.instIsTotal (names : Int → String) :
    IsTotal StandingRow (rankKeyLE names) := by
  constructor
  intro a b
  unfold rankKeyLE
  split_ifs <;>
    first
      | omega
      | exact le_total (names a.team_id) (names b.team_id)

instance tableLE.instIsTrans : IsTrans (StandingRow × TeamRow) tableLE := by
  constructor
  intro a b c hab hbc
  unfold tableLE at hab hbc ⊢
  split_ifs at hab hbc ⊢ <;>
    first
      | omega
      | exact le_trans hab hbc

instance tableLE.instIsTotal : IsTotal (StandingRow × TeamRow) tableLE := by
  constructor
  intro a b
  unfold tableLE
  split_ifs <;>
    first
      | omega
      | exact le_total a.2.name b.2.name

/-- The counting bucket that feeds the rows of `(season, stage)`. -/
def bucketFor (season : Int) (ms : List MatchResult) (stage : String) :
    StageTable :=
  if stage = "anual" then anualTable (standingsData ms) season
  else standingsData ms (season, stage)

/-- Stage relevance of a stored match, with the `anual` expansion, as the
claims phrase "matches of that stage". -/
def matchInStage (season : Int) (stage : String) (m : MatchResult) : Prop :=
  m.season_year = season ∧
    (if stage = "anual" then m.stage_code = "apertura" ∨ m.stage_code = "clausura"
     else m.stage_code = stage)

/-- C8: the ranked-table query is read-only and deterministic over the
persisted store, so apart from the wall-clock `updated_at` stamp the two
calls agree; in particular the row lists are identical. This is the amended
statement: the full dict is not identical, because `updated_at` is read
from the wall clock on every call (see the counterexample). -/
theorem auf_c8_compute_table_idempotent
    (stored : List StandingRow) (teams : List TeamRow) (season : Int)
    (stage : String) (now1 now2 : String) :
    (computeTable stored teams season stage now1).rows =
      (computeTable stored teams season stage now2).rows ∧
    (computeTable stored teams season stage now1).season =
      (computeTable stored teams season stage now2).season ∧
    (computeTable stored teams season stage now1).stage =
      (computeTable stored teams season stage now2).stage ∧
    (computeTable stored teams season stage now1).source =
      (computeTable stored teams season stage now2).source := by
  exact ⟨rfl, rfl, rfl, rfl⟩

/-- C8, counterexample to the claim as stated: two calls on the same store
return dicts differing in the `updated_at` field, so the full returned
value of the second call is not equal to that of the first. -/
theorem auf_c8_counterexample :
    computeTable [] [] 2024 "apertura" "2024-05-01T10:00:00" ≠
      computeTable [] [] 2024 "apertura" "2024-05-01T10:00:01" := by
  decide

/-! ### Helper lemmas on the standings builder -/

lemma storedRows_eq (teams : List TeamRow) (season : Int)
    (ms : List MatchResult) (stage : String) (l5 ts gk : Int → String)
    (att : Int → ℚ) :
    storedRows teams season ms stage l5 ts gk att =
      (teams.map (fun t =>
        mkRow season stage t.id (bucketFor season ms stage t.id) l5 ts gk att)).insertionSort
        (rankKeyLE (nameOf teams)) := by
  unfold storedRows bucketFor
  by_cases h : stage = "anual" <;> simp [h, stageRows]

lemma mem_storedRows {teams : List TeamRow} {season : Int}
    {ms : List MatchResult} {stage : String} {l5 ts gk : Int → String}
    {att : Int → ℚ} {r : StandingRow} :
    r ∈ storedRows teams season ms stage l5 ts gk att ↔
      ∃ t ∈ teams,
        r = mkRow season stage t.id (bucketFor season ms stage t.id) l5 ts gk att := by
  rw [storedRows_eq, List.mem_insertionSort, List.mem_map]
  constructor
  · rintro ⟨t, ht, rfl⟩; exact ⟨t, ht, rfl⟩
  · rintro ⟨t, ht, rfl⟩; exact ⟨t, ht, rfl⟩

lemma storedRows_row_eq {teams : List TeamRow} {season : Int}
    {ms : List MatchResult} {stage : String} {l5 ts gk : Int → String}
    {att : Int → ℚ} {r : StandingRow} {tid : Int}
    (hr : r ∈ storedRows teams season ms stage l5 ts gk att)
    (hid : r.team_id = tid) :
    r = mkRow season stage tid (bucketFor season ms stage tid) l5 ts gk att := by
  rcases mem_storedRows.1 hr with ⟨t, _ht, rfl⟩
  have h : t.id = tid := hid
  subst h
  rfl

lemma standingsData_foldl (ms : List MatchResult)
    (B : Int × String → StageTable) (key : Int × String) :
    (ms.foldl
      (fun buckets m k =>
        if k = (m.season_year, m.stage_code) then foldMatchInto (buckets k) m
        else buckets k)
      B) key =
      (ms.filter (fun m => decide ((m.season_year, m.stage_code) = key))).foldl
        foldMatchInto (B key) := by
  induction ms generalizing B with
  | nil => rfl
  | cons m rest ih =>
    rw [List.foldl_cons, ih, List.filter_cons]
    by_cases h : (m.season_year, m.stage_code) = key
    · rw [if_pos h.symm, if_pos (by simpa using h), List.foldl_cons]
    · rw [if_neg (fun hk => h hk.symm), if_neg (by simpa using h)]

lemma standingsData_apply (ms : List MatchResult) (key : Int × String) :
    standingsData ms key =
      (ms.filter (fun m => decide ((m.season_year, m.stage_code) = key))).foldl
        foldMatchInto (fun _ => initCounts) := by
  unfold standingsData
  exact standingsData_foldl ms _ key

lemma foldMatchInto_notMem {tbl : StageTable} {m : MatchResult} {tid : Int}
    (h1 : m.home_team_id ≠ tid) (h2 : m.away_team_id ≠ tid) :
    foldMatchInto tbl m tid = tbl tid := by
  unfold foldMatchInto applyMatch
  rw [if_neg (fun h => h2 h.symm), if_neg (fun h => h1 h.symm)]

lemma foldl_foldMatchInto_notMem (ms : List MatchResult) (tbl : StageTable)
    (tid : Int)
    (h : ∀ m ∈ ms, m.home_team_id ≠ tid ∧ m.away_team_id ≠ tid) :
    (ms.foldl foldMatchInto tbl) tid = tbl tid := by
  induction ms generalizing tbl with
  | nil => rfl
  | cons m rest ih =>
    simp only [List.foldl_cons]
    rw [ih _ (fun m hm => h m (List.mem_cons_of_mem _ hm))]
    exact foldMatchInto_notMem (h m (List.mem_cons_self m rest)).1
      (h m (List.mem_cons_self m rest)).2

lemma standingsData_notMem (ms : List MatchResult) (key : Int × String)
    (tid : Int)
    (h : ∀ m ∈ ms, (m.season_year, m.stage_code) = key →
      m.home_team_id ≠ tid ∧ m.away_team_id ≠ tid) :
    standingsData ms key tid = initCounts := by
  rw [standingsData_apply]
  rw [foldl_foldMatchInto_notMem]
  intro m hm
  rw [List.mem_filter] at hm
  exact h m hm.1 (by simpa using hm.2)

lemma updateCounts_balance {c : Counts} (hc : c.w + c.d + c.l = c.mp)
    (gf ga : Nat) :
    (updateCounts c gf ga).w + (updateCounts c gf ga).d +
      (updateCounts c gf ga).l = (updateCounts c gf ga).mp := by
  unfold updateCounts
  split_ifs <;> dsimp only <;> omega

lemma foldMatchInto_balance {tbl : StageTable}
    (hb : ∀ t, (tbl t).w + (tbl t).d + (tbl t).l = (tbl t).mp)
    (m : MatchResult) (t : Int) :
    (foldMatchInto tbl m t).w + (foldMatchInto tbl m t).d +
      (foldMatchInto tbl m t).l = (foldMatchInto tbl m t).mp := by
  unfold foldMatchInto applyMatch
  split_ifs <;>
    first
      | exact updateCounts_balance (updateCounts_balance (hb _) _ _) _ _
      | exact updateCounts_balance (hb _) _ _
      | exact hb _

lemma foldl_foldMatchInto_balance (ms : List MatchResult) (tbl : StageTable)
    (hb : ∀ t, (tbl t).w + (tbl t).d + (tbl t).l = (tbl t).mp) (tid : Int) :
    ((ms.foldl foldMatchInto tbl) tid).w + ((ms.foldl foldMatchInto tbl) tid).d +
      ((ms.foldl foldMatchInto tbl) tid).l = ((ms.foldl foldMatchInto tbl) tid).mp := by
  induction ms generalizing tbl with
  | nil => exact hb tid
  | cons m rest ih =>
    simp only [List.foldl_cons]
    exact ih _ (fun t => foldMatchInto_balance hb m t)

lemma bucketFor_balance (season : Int) (ms : List MatchResult) (stage : String)
    (tid : Int) :
    (bucketFor season ms stage tid).w + (bucketFor season ms stage tid).d +
      (bucketFor season ms stage tid).l = (bucketFor season ms stage tid).mp := by
  have hsd : ∀ key, (standingsData ms key tid).w + (standingsData ms key tid).d +
      (standingsData ms key tid).l = (standingsData ms key tid).mp := by
    intro key
    rw [standingsData_apply]
    exact foldl_foldMatchInto_balance _ _ (fun _ => rfl) tid
  unfold bucketFor
  by_cases h : stage = "anual"
  · rw [if_pos h]
    unfold anualTable addCounts
    have h1 := hsd (season, "apertura")
    have h2 := hsd (season, "clausura")
    dsimp only
    omega
  · rw [if_neg h]
    exact hsd _

lemma mp_or_one_eq_max (n : Nat) : (if n = 0 then 1 else n) = max n 1 := by
  split_ifs with h <;> omega

/-- C4: every standings row built by the aggregator satisfies
`gd = gf - ga`, `pts = 3*w + d` and `ppg = round2(pts / max(mp, 1))`; a
team with 3 wins, 1 draw, 1 loss, 9 goals for and 4 against over 5 matches
shows `mp=5, pts=10, gd=5, ppg=2.0`; and a zero-match team gets `ppg = 0`
(the division is guarded by `max(mp, 1)`). -/
theorem auf_c4_derived_fields :
    (∀ (teams : List TeamRow) (season : Int) (ms : List MatchResult)
        (stage : String) (l5 ts gk : Int → String) (att : Int → ℚ)
        (r : StandingRow), r ∈ storedRows teams season ms stage l5 ts gk att →
        r.gd = (r.gf : Int) - (r.ga : Int) ∧
        r.pts = 3 * r.w + r.d ∧
        r.ppg = round2 ((r.pts : ℚ) / ((max r.mp 1 : Nat) : ℚ)) ∧
        (r.mp = 0 → r.ppg = 0)) ∧
    (∃ r ∈ storedRows [⟨1, "Alfa", "a"⟩, ⟨2, "Beta", "b"⟩] 2024
        [⟨1, 2024, "apertura", 1, 2, 3, 0, "d1"⟩,
         ⟨2, 2024, "apertura", 1, 2, 3, 1, "d2"⟩,
         ⟨3, 2024, "apertura", 1, 2, 2, 1, "d3"⟩,
         ⟨4, 2024, "apertura", 1, 2, 1, 1, "d4"⟩,
         ⟨5, 2024, "apertura", 1, 2, 0, 1, "d5"⟩] "apertura"
        (fun _ => "") (fun _ => "") (fun _ => "") (fun _ => 0),
      r.team_id = 1 ∧ r.mp = 5 ∧ r.w = 3 ∧ r.d = 1 ∧ r.l = 1 ∧ r.gf = 9 ∧
        r.ga = 4 ∧ r.pts = 10 ∧ r.gd = 5 ∧ r.ppg = 2) := by
  constructor
  · intro teams season ms stage l5 ts gk att r hr
    have h := storedRows_row_eq hr rfl
    have hbal := bucketFor_balance season ms stage r.team_id
    rw [h]
    unfold mkRow
    refine ⟨rfl, by dsimp only; omega, ?_, ?_⟩
    · dsimp only
      rw [mp_or_one_eq_max]
    · intro hmp
      dsimp only at hmp ⊢
      have hw : (bucketFor season ms stage r.team_id).w = 0 := by omega
      have hd : (bucketFor season ms stage r.team_id).d = 0 := by omega
      rw [hw, hd]
      norm_num [round2]
  · refine ⟨mkRow 2024 "apertura" 1
      (bucketFor 2024
        [⟨1, 2024, "apertura", 1, 2, 3, 0, "d1"⟩,
         ⟨2, 2024, "apertura", 1, 2, 3, 1, "d2"⟩,
         ⟨3, 2024, "apertura", 1, 2, 2, 1, "d3"⟩,
         ⟨4, 2024, "apertura", 1, 2, 1, 1, "d4"⟩,
         ⟨5, 2024, "apertura", 1, 2, 0, 1, "d5"⟩] "apertura" 1)
      (fun _ => "") (fun _ => "") (fun _ => "") (fun _ => 0), ?_, ?_⟩
    · exact mem_storedRows.2 ⟨⟨1, "Alfa", "a"⟩, by simp, rfl⟩
    · have hc : bucketFor 2024
        [⟨1, 2024, "apertura", 1, 2, 3, 0, "d1"⟩,
         ⟨2, 2024, "apertura", 1, 2, 3, 1, "d2"⟩,
         ⟨3, 2024, "apertura", 1, 2, 2, 1, "d3"⟩,
         ⟨4, 2024, "apertura", 1, 2, 1, 1, "d4"⟩,
         ⟨5, 2024, "apertura", 1, 2, 0, 1, "d5"⟩] "apertura" 1 = ⟨5, 3, 1, 1, 9, 4⟩ := by
        decide
      rw [hc]
      unfold mkRow
      refine ⟨rfl, rfl, rfl, rfl, rfl, rfl, rfl, rfl, by norm_num, ?_⟩
      dsimp only
      norm_num [round2]

/-- Witness for C4: the universally quantified part applied at a concrete
store with its membership hypothesis discharged on a concrete row. -/
theorem auf_c4_derived_fields_witness :
    mkRow 2024 "apertura" 1
        (bucketFor 2024 [⟨1, 2024, "apertura", 1, 2, 3, 0, "d1"⟩] "apertura" 1)
        (fun _ => "") (fun _ => "") (fun _ => "") (fun _ => 0) ∈
      storedRows [⟨1, "Alfa", "a"⟩] 2024
        [⟨1, 2024, "apertura", 1, 2, 3, 0, "d1"⟩] "apertura"
        (fun _ => "") (fun _ => "") (fun _ => "") (fun _ => 0) ∧
    (mkRow 2024 "apertura" 1
        (bucketFor 2024 [⟨1, 2024, "apertura", 1, 2, 3, 0, "d1"⟩] "apertura" 1)
        (fun _ => "") (fun _ => "") (fun _ => "") (fun _ => 0)).gd =
      ((mkRow 2024 "apertura" 1
        (bucketFor 2024 [⟨1, 2024, "apertura", 1, 2, 3, 0, "d1"⟩] "apertura" 1)
        (fun _ => "") (fun _ => "") (fun _ => "") (fun _ => 0)).gf : Int) -
      ((mkRow 2024 "apertura" 1
        (bucketFor 2024 [⟨1, 2024, "apertura", 1, 2, 3, 0, "d1"⟩] "apertura" 1)
        (fun _ => "") (fun _ => "") (fun _ => "") (fun _ => 0)).ga : Int) := by
  have hm : mkRow 2024 "apertura" 1
      (bucketFor 2024 [⟨1, 2024, "apertura", 1, 2, 3, 0, "d1"⟩] "apertura" 1)
      (fun _ => "") (fun _ => "") (fun _ => "") (fun _ => 0) ∈
      storedRows [⟨1, "Alfa", "a"⟩] 2024
        [⟨1, 2024, "apertura", 1, 2, 3, 0, "d1"⟩] "apertura"
        (fun _ => "") (fun _ => "") (fun _ => "") (fun _ => 0) :=
    mem_storedRows.2 ⟨⟨1, "Alfa", "a"⟩, by decide, rfl⟩
  exact ⟨hm, (auf_c4_derived_fields.1 _ 2024 _ "apertura" _ _ _ _ _ hm).1⟩

lemma bucketFor_anual (season : Int) (ms : List MatchResult) (tid : Int) :
    bucketFor season ms "anual" tid =
      addCounts (standingsData ms (season, "apertura") tid)
        (standingsData ms (season, "clausura") tid) := by
  unfold bucketFor
  rw [if_pos rfl]
  rfl

lemma bucketFor_other (season : Int) (ms : List MatchResult) (stage : String)
    (tid : Int) (h : stage ≠ "anual") :
    bucketFor season ms stage tid = standingsData ms (season, stage) tid := by
  unfold bucketFor
  rw [if_neg h]

/-- C1: for every team, the persisted `anual` row's six counting fields are
the sums of the `apertura` and `clausura` counting fields, the derived
fields `pts`, `gd`, `ppg` are recomputed from those summed counts, and when
no clausura match exists for the season the anual counting fields equal the
apertura ones exactly. -/
theorem auf_c1_annual_aggregate
    (teams : List TeamRow) (season : Int) (ms : List MatchResult)
    (l5a tsa gka : Int → String) (atta : Int → ℚ)
    (l5b tsb gkb : Int → String) (attb : Int → ℚ)
    (l5c tsc gkc : Int → String) (attc : Int → ℚ)
    (ra rb rc : StandingRow)
    (hra : ra ∈ storedRows teams season ms "anual" l5a tsa gka atta)
    (hrb : rb ∈ storedRows teams season ms "apertura" l5b tsb gkb attb)
    (hrc : rc ∈ storedRows teams season ms "clausura" l5c tsc gkc attc)
    (hidb : rb.team_id = ra.team_id) (hidc : rc.team_id = ra.team_id) :
    (ra.mp = rb.mp + rc.mp ∧ ra.w = rb.w + rc.w ∧ ra.d = rb.d + rc.d ∧
      ra.l = rb.l + rc.l ∧ ra.gf = rb.gf + rc.gf ∧ ra.ga = rb.ga + rc.ga) ∧
    ra.pts = 3 * (rb.w + rc.w) + (rb.d + rc.d) ∧
    ra.gd = ((rb.gf + rc.gf : Nat) : Int) - ((rb.ga + rc.ga : Nat) : Int) ∧
    ra.ppg = round2 ((ra.pts : ℚ) / ((max ra.mp 1 : Nat) : ℚ)) ∧
    ((∀ m ∈ ms, ¬(m.season_year = season ∧ m.stage_code = "clausura")) →
      ra.mp = rb.mp ∧ ra.w = rb.w ∧ ra.d = rb.d ∧ ra.l = rb.l ∧
        ra.gf = rb.gf ∧ ra.ga = rb.ga) := by
  have ha := storedRows_row_eq hra rfl
  have hb := storedRows_row_eq hrb hidb
  have hc := storedRows_row_eq hrc hidc
  rw [ha, hb, hc]
  unfold mkRow
  rw [bucketFor_anual, bucketFor_other season ms "apertura" ra.team_id (by decide),
    bucketFor_other season ms "clausura" ra.team_id (by decide)]
  unfold addCounts
  dsimp only
  refine ⟨⟨rfl, rfl, rfl, rfl, rfl, rfl⟩, by omega, by push_cast; ring, ?_, ?_⟩
  · rw [mp_or_one_eq_max]
  · intro hnone
    have hz : standingsData ms (season, "clausura") ra.team_id = initCounts := by
      apply standingsData_notMem
      intro m hm hkey
      exfalso
      exact hnone m hm ⟨congrArg Prod.fst hkey, congrArg Prod.snd hkey⟩
    rw [hz]
    unfold initCounts
    dsimp only
    omega

/-- Witness for C1: the theorem applied to a one-team store with a single
apertura match, its membership hypotheses discharged on concrete rows. -/
theorem auf_c1_annual_aggregate_witness :
    (mkRow 2024 "anual" 1
        (bucketFor 2024 [⟨1, 2024, "apertura", 1, 2, 2, 1, "d1"⟩] "anual" 1)
        (fun _ => "") (fun _ => "") (fun _ => "") (fun _ => 0)).mp =
      (mkRow 2024 "apertura" 1
        (bucketFor 2024 [⟨1, 2024, "apertura", 1, 2, 2, 1, "d1"⟩] "apertura" 1)
        (fun _ => "") (fun _ => "") (fun _ => "") (fun _ => 0)).mp +
      (mkRow 2024 "clausura" 1
        (bucketFor 2024 [⟨1, 2024, "apertura", 1, 2, 2, 1, "d1"⟩] "clausura" 1)
        (fun _ => "") (fun _ => "") (fun _ => "") (fun _ => 0)).mp := by
  have hma : mkRow 2024 "anual" 1
      (bucketFor 2024 [⟨1, 2024, "apertura", 1, 2, 2, 1, "d1"⟩] "anual" 1)
      (fun _ => "") (fun _ => "") (fun _ => "") (fun _ => 0) ∈
      storedRows [⟨1, "Alfa", "a"⟩] 2024
        [⟨1, 2024, "apertura", 1, 2, 2, 1, "d1"⟩] "anual"
        (fun _ => "") (fun _ => "") (fun _ => "") (fun _ => 0) :=
    mem_storedRows.2 ⟨⟨1, "Alfa", "a"⟩, by decide, rfl⟩
  have hmb : mkRow 2024 "apertura" 1
      (bucketFor 2024 [⟨1, 2024, "apertura", 1, 2, 2, 1, "d1"⟩] "apertura" 1)
      (fun _ => "") (fun _ => "") (fun _ => "") (fun _ => 0) ∈
      storedRows [⟨1, "Alfa", "a"⟩] 2024
        [⟨1, 2024, "apertura", 1, 2, 2, 1, "d1"⟩] "apertura"
        (fun _ => "") (fun _ => "") (fun _ => "") (fun _ => 0) :=
    mem_storedRows.2 ⟨⟨1, "Alfa", "a"⟩, by decide, rfl⟩
  have hmc : mkRow 2024 "clausura" 1
      (bucketFor 2024 [⟨1, 2024, "apertura", 1, 2, 2, 1, "d1"⟩] "clausura" 1)
      (fun _ => "") (fun _ => "") (fun _ => "") (fun _ => 0) ∈
      storedRows [⟨1, "Alfa", "a"⟩] 2024
        [⟨1, 2024, "apertura", 1, 2, 2, 1, "d1"⟩] "clausura"
        (fun _ => "") (fun _ => "") (fun _ => "") (fun _ => 0) :=
    mem_storedRows.2 ⟨⟨1, "Alfa", "a"⟩, by decide, rfl⟩
  exact (auf_c1_annual_aggregate _ 2024 _ _ _ _ _ _ _ _ _ _ _ _ _
    _ _ _ hma hmb hmc rfl rfl).1.1

lemma countP_storedRows (teams : List TeamRow) (season : Int)
    (ms : List MatchResult) (stage : String) (l5 ts gk : Int → String)
    (att : Int → ℚ) (p : StandingRow → Bool) :
    (storedRows teams season ms stage l5 ts gk att).countP p =
      (teams.map (fun t =>
        mkRow season stage t.id (bucketFor season ms stage t.id) l5 ts gk att)).countP p := by
  rw [storedRows_eq]
  exact (List.perm_insertionSort _ _).countP_eq p

lemma countP_id_eq_one {teams : List TeamRow}
    (hnd : (teams.map (fun t => t.id)).Nodup) {t0 : TeamRow}
    (ht : t0 ∈ teams) :
    teams.countP (fun t => decide (t.id = t0.id)) = 1 := by
  induction teams with
  | nil => cases ht
  | cons a rest ih =>
    rw [List.countP_cons]
    rw [List.map_cons, List.nodup_cons] at hnd
    rcases List.mem_cons.1 ht with rfl | hmem
    · have hz : rest.countP (fun t => decide (t.id = t0.id)) = 0 := by
        apply List.countP_eq_zero.2
        intro b hb
        simp only [decide_eq_true_eq]
        intro hbid
        exact hnd.1 (hbid ▸ List.mem_map_of_mem _ hb)
      simp [hz]
    · have hne : ¬(a.id = t0.id) := by
        intro hid
        apply hnd.1
        rw [hid]
        exact List.mem_map_of_mem _ hmem
      rw [ih hnd.2 hmem]
      simp [hne]

lemma bucketFor_zero (season : Int) (ms : List MatchResult) (stage : String)
    (tid : Int)
    (h : ∀ m ∈ ms, matchInStage season stage m →
      m.home_team_id ≠ tid ∧ m.away_team_id ≠ tid) :
    bucketFor season ms stage tid = initCounts := by
  unfold bucketFor
  by_cases hs : stage = "anual"
  · subst hs
    rw [if_pos rfl]
    unfold anualTable
    rw [standingsData_notMem _ _ _ (fun m hm hk => h m hm
        ⟨congrArg Prod.fst hk, by rw [if_pos rfl]; exact Or.inl (congrArg Prod.snd hk)⟩),
      standingsData_notMem _ _ _ (fun m hm hk => h m hm
        ⟨congrArg Prod.fst hk, by rw [if_pos rfl]; exact Or.inr (congrArg Prod.snd hk)⟩)]
    rfl
  · rw [if_neg hs]
    apply standingsData_notMem
    intro m hm hk
    exact h m hm ⟨congrArg Prod.fst hk, by rw [if_neg hs]; exact congrArg Prod.snd hk⟩

/-- C5: in each stage's persisted ranked table (including the virtual
`anual` one) every team of the store appears exactly once, and a team with
no match in that stage appears with all counting fields zero. -/
theorem auf_c5_every_team_once
    (teams : List TeamRow) (season : Int) (ms : List MatchResult)
    (stage : String) (l5 ts gk : Int → String) (att : Int → ℚ)
    (_hstage : stage ∈ ["apertura", "clausura", "intermedio", "anual"])
    (hnd : (teams.map (fun t => t.id)).Nodup) :
    ∀ t0 ∈ teams,
      (storedRows teams season ms stage l5 ts gk att).countP
        (fun r => decide (r.team_id = t0.id)) = 1 ∧
      ((∀ m ∈ ms, matchInStage season stage m →
          m.home_team_id ≠ t0.id ∧ m.away_team_id ≠ t0.id) →
        ∃ r ∈ storedRows teams season ms stage l5 ts gk att,
          r.team_id = t0.id ∧ r.mp = 0 ∧ r.w = 0 ∧ r.d = 0 ∧ r.l = 0 ∧
            r.gf = 0 ∧ r.ga = 0 ∧ r.gd = 0 ∧ r.pts = 0) := by
  intro t0 ht
  constructor
  · rw [countP_storedRows, List.countP_map]
    have hcong : List.countP
        ((fun r => decide (r.team_id = t0.id)) ∘ (fun t : TeamRow =>
          mkRow season stage t.id (bucketFor season ms stage t.id) l5 ts gk att))
        teams = List.countP (fun t => decide (t.id = t0.id)) teams :=
      List.countP_congr (fun a _ => Iff.rfl)
    rw [hcong]
    exact countP_id_eq_one hnd ht
  · intro hno
    refine ⟨mkRow season stage t0.id (bucketFor season ms stage t0.id) l5 ts gk att,
      mem_storedRows.2 ⟨t0, ht, rfl⟩, ?_⟩
    rw [bucketFor_zero season ms stage t0.id hno]
    unfold mkRow initCounts
    refine ⟨rfl, rfl, rfl, rfl, rfl, rfl, rfl, by norm_num, rfl⟩

/-- Witness for C5: the theorem applied to a one-team store with no
matches; the zero-match team appears exactly once with an all-zero row. -/
theorem auf_c5_every_team_once_witness :
    (storedRows [⟨1, "Alfa", "a"⟩] 2024 [] "apertura"
        (fun _ => "") (fun _ => "") (fun _ => "") (fun _ => 0)).countP
      (fun r => decide (r.team_id = (1 : Int))) = 1 := by
  have h := auf_c5_every_team_once [⟨1, "Alfa", "a"⟩] 2024 [] "apertura"
    (fun _ => "") (fun _ => "") (fun _ => "") (fun _ => 0)
    (by decide) (by decide) ⟨1, "Alfa", "a"⟩ (by decide)
  exact h.1

lemma tableLE_cases {a b : StandingRow × TeamRow} (h : tableLE a b) :
    b.1.pts < a.1.pts ∨
    (a.1.pts = b.1.pts ∧ b.1.gd < a.1.gd) ∨
    (a.1.pts = b.1.pts ∧ a.1.gd = b.1.gd ∧ b.1.gf < a.1.gf) ∨
    (a.1.pts = b.1.pts ∧ a.1.gd = b.1.gd ∧ a.1.gf = b.1.gf ∧
      a.2.name ≤ b.2.name) := by
  unfold tableLE at h
  split_ifs at h <;> tauto

lemma computeTable_rows_eq (stored : List StandingRow) (teams : List TeamRow)
    (season : Int) (stage : String) (now : String) :
    (computeTable stored teams season stage now).rows =
      (((stored.filter (fun r =>
          decide (r.season_year = season) && decide (r.stage_code = stage))).filterMap
        (fun r => (teams.find? (fun t => t.id = r.team_id)).map (fun t => (r, t)))).insertionSort
          tableLE).mapIdx (fun i rt => mkTableRow (i + 1) rt) :=
  rfl

lemma computeTable_sorted (stored : List StandingRow) (teams : List TeamRow)
    (season : Int) (stage : String) (now : String) (i j : Nat)
    (hj : j < (computeTable stored teams season stage now).rows.length)
    (hij : i < j) :
    tableLE
      ((((stored.filter (fun r =>
          decide (r.season_year = season) && decide (r.stage_code = stage))).filterMap
        (fun r => (teams.find? (fun t => t.id = r.team_id)).map (fun t => (r, t)))).insertionSort
          tableLE).get ⟨i, by
            simp only [computeTable_rows_eq, List.length_mapIdx] at hj
            omega⟩)
      ((((stored.filter (fun r =>
          decide (r.season_year = season) && decide (r.stage_code = stage))).filterMap
        (fun r => (teams.find? (fun t => t.id = r.team_id)).map (fun t => (r, t)))).insertionSort
          tableLE).get ⟨j, by
            simp only [computeTable_rows_eq, List.length_mapIdx] at hj
            omega⟩) := by
  have hs := List.sorted_insertionSort tableLE
    ((stored.filter (fun r =>
        decide (r.season_year = season) && decide (r.stage_code = stage))).filterMap
      (fun r => (teams.find? (fun t => t.id = r.team_id)).map (fun t => (r, t))))
  rw [List.Sorted, List.pairwise_iff_getElem] at hs
  simp only [computeTable_rows_eq, List.length_mapIdx] at hj
  exact hs i j (by omega) (by omega) hij

lemma computeTable_row_fields (stored : List StandingRow)
    (teams : List TeamRow) (season : Int) (stage : String) (now : String)
    (k : Nat) (hk : k < (computeTable stored teams season stage now).rows.length) :
    (computeTable stored teams season stage now).rows.get ⟨k, hk⟩ =
      mkTableRow (k + 1)
        ((((stored.filter (fun r =>
            decide (r.season_year = season) && decide (r.stage_code = stage))).filterMap
          (fun r => (teams.find? (fun t => t.id = r.team_id)).map (fun t => (r, t)))).insertionSort
            tableLE).get ⟨k, by
              simp only [computeTable_rows_eq, List.length_mapIdx] at hk
              omega⟩) := by
  simp only [computeTable_rows_eq]
  simp [List.get_eq_getElem]

/-- C3: the persisted standings rows are ordered by the deterministic total
order (points descending, then goal difference, then goals-for, then team
name ascending); the ranked-table query orders its output by the same key
and assigns 1-based positions after the sort; consequently among rows with
equal points and equal goal difference the one with more goals-for comes
first, and with those also equal the names appear in ascending order. -/
theorem auf_c3_ranking_order :
    (∀ (teams : List TeamRow) (season : Int) (ms : List MatchResult)
        (stage : String) (l5 ts gk : Int → String) (att : Int → ℚ),
        (storedRows teams season ms stage l5 ts gk att).Pairwise
          (rankKeyLE (nameOf teams))) ∧
    (∀ (stored : List StandingRow) (teams : List TeamRow) (season : Int)
        (stage : String) (now : String),
      (∀ (k : Nat) (hk : k < (computeTable stored teams season stage now).rows.length),
        ((computeTable stored teams season stage now).rows.get ⟨k, hk⟩).pos = k + 1) ∧
      (∀ (i j : Nat) (hi : i < (computeTable stored teams season stage now).rows.length)
          (hj : j < (computeTable stored teams season stage now).rows.length),
        i < j →
        (((computeTable stored teams season stage now).rows.get ⟨j, hj⟩).pts <
            ((computeTable stored teams season stage now).rows.get ⟨i, hi⟩).pts ∨
          (((computeTable stored teams season stage now).rows.get ⟨i, hi⟩).pts =
              ((computeTable stored teams season stage now).rows.get ⟨j, hj⟩).pts ∧
            (((computeTable stored teams season stage now).rows.get ⟨j, hj⟩).gd <
                ((computeTable stored teams season stage now).rows.get ⟨i, hi⟩).gd ∨
              (((computeTable stored teams season stage now).rows.get ⟨i, hi⟩).gd =
                  ((computeTable stored teams season stage now).rows.get ⟨j, hj⟩).gd ∧
                (((computeTable stored teams season stage now).rows.get ⟨j, hj⟩).gf <
                    ((computeTable stored teams season stage now).rows.get ⟨i, hi⟩).gf ∨
                  (((computeTable stored teams season stage now).rows.get ⟨i, hi⟩).gf =
                      ((computeTable stored teams season stage now).rows.get ⟨j, hj⟩).gf ∧
                    ((computeTable stored teams season stage now).rows.get ⟨i, hi⟩).team ≤
                      ((computeTable stored teams season stage now).rows.get ⟨j, hj⟩).team))))))) ∧
      (∀ (i j : Nat) (hi : i < (computeTable stored teams season stage now).rows.length)
          (hj : j < (computeTable stored teams season stage now).rows.length),
        ((computeTable stored teams season stage now).rows.get ⟨i, hi⟩).pts =
          ((computeTable stored teams season stage now).rows.get ⟨j, hj⟩).pts →
        ((computeTable stored teams season stage now).rows.get ⟨i, hi⟩).gd =
          ((computeTable stored teams season stage now).rows.get ⟨j, hj⟩).gd →
        ((computeTable stored teams season stage now).rows.get ⟨j, hj⟩).gf <
          ((computeTable stored teams season stage now).rows.get ⟨i, hi⟩).gf →
        i < j) ∧
      (∀ (i j : Nat) (hi : i < (computeTable stored teams season stage now).rows.length)
          (hj : j < (computeTable stored teams season stage now).rows.length),
        ((computeTable stored teams season stage now).rows.get ⟨i, hi⟩).pts =
          ((computeTable stored teams season stage now).rows.get ⟨j, hj⟩).pts →
        ((computeTable stored teams season stage now).rows.get ⟨i, hi⟩).gd =
          ((computeTable stored teams season stage now).rows.get ⟨j, hj⟩).gd →
        ((computeTable stored teams season stage now).rows.get ⟨i, hi⟩).gf =
          ((computeTable stored teams season stage now).rows.get ⟨j, hj⟩).gf →
        ((computeTable stored teams season stage now).rows.get ⟨i, hi⟩).team <
          ((computeTable stored teams season stage now).rows.get ⟨j, hj⟩).team →
        i < j)) := by
  constructor
  · intro teams season ms stage l5 ts gk att
    rw [storedRows_eq]
    exact List.sorted_insertionSort (rankKeyLE (nameOf teams)) _
  · intro stored teams season stage now
    have hs := List.sorted_insertionSort tableLE
      ((stored.filter (fun r =>
          decide (r.season_year = season) && decide (r.stage_code = stage))).filterMap
        (fun r => (teams.find? (fun t => t.id = r.team_id)).map (fun t => (r, t))))
    rw [List.Sorted, List.pairwise_iff_getElem] at hs
    refine ⟨?_, ?_, ?_, ?_⟩ <;>
      simp only [computeTable_rows_eq, List.length_mapIdx, List.get_eq_getElem,
        List.getElem_mapIdx]
    · intro k hk
      rfl
    · intro i j hi hj hij
      have hcases := tableLE_cases (hs i j hi hj hij)
      unfold mkTableRow
      dsimp only
      tauto
    · intro i j hi hj hpts hgd hgf
      rcases Nat.lt_trichotomy i j with h | h | h
      · exact h
      · exfalso
        subst h
        exact lt_irrefl _ hgf
      · exfalso
        have hcases := tableLE_cases (hs j i hj hi h)
        unfold mkTableRow at hpts hgd hgf
        dsimp only at hpts hgd hgf
        rcases hcases with h1 | ⟨h1, h2⟩ | ⟨h1, h2, h3⟩ | ⟨h1, h2, h3, h4⟩ <;> omega
    · intro i j hi hj hpts hgd hgf hname
      rcases Nat.lt_trichotomy i j with h | h | h
      · exact h
      · exfalso
        subst h
        exact lt_irrefl _ hname
      · exfalso
        have hcases := tableLE_cases (hs j i hj hi h)
        unfold mkTableRow at hpts hgd hgf hname
        dsimp only at hpts hgd hgf hname
        rcases hcases with h1 | ⟨h1, h2⟩ | ⟨h1, h2, h3⟩ | ⟨h1, h2, h3, h4⟩
        · omega
        · omega
        · omega
        · exact absurd hname (not_lt.2 h4)

/-- Witness for C3: the position-numbering part applied to a concrete
one-row store. -/
theorem auf_c3_ranking_order_witness :
    ((computeTable
        [⟨2024, "apertura", 1, 0, 0, 0, 0, 0, 0, 0, 0, 0, "", "", "", 0⟩]
        [⟨1, "Alfa", "a"⟩] 2024 "apertura" "t").rows.get ⟨0, by decide⟩).pos =
      0 + 1 :=
  (auf_c3_ranking_order.2
      [⟨2024, "apertura", 1, 0, 0, 0, 0, 0, 0, 0, 0, 0, "", "", "", 0⟩]
      [⟨1, "Alfa", "a"⟩] 2024 "apertura" "t").1 0 (by decide)

/-! ### Helper lemmas on the random-source model and the schedule builders -/

lemma randint_le (r : Rng) (a b : Nat) (h : a ≤ b) : (r.randint a b).1 ≤ b := by
  unfold Rng.randint
  dsimp only
  have hlt := Nat.mod_lt ((r.stream r.pos).floor.toNat)
    (show 0 < b + 1 - a by omega)
  omega

lemma uniform01_nonneg (r : Rng) : 0 ≤ (r.uniform 0 1).1 := by
  unfold Rng.uniform clamp01
  dsimp only
  have := le_max_left (0 : ℚ) (min 1 (r.stream r.pos))
  linarith [le_max_left (0 : ℚ) (min 1 (r.stream r.pos))]

lemma uniform01_le_one (r : Rng) : (r.uniform 0 1).1 ≤ 1 := by
  unfold Rng.uniform clamp01
  dsimp only
  have h1 : max 0 (min 1 (r.stream r.pos)) ≤ 1 :=
    max_le (by norm_num) (min_le_left _ _)
  linarith

lemma rrFixture_home_goals (idx : Nat) (d : Int) (hm aw : Int) (r : Rng) :
    (rrFixture idx d hm aw r).1.home_goals =
      ((r.uniform 0 1).2.randint 0 3).1 +
        (if (3 : ℚ) / 5 < (r.uniform 0 1).1 then 1 else 0) :=
  rfl

lemma rrFixture_away_goals (idx : Nat) (d : Int) (hm aw : Int) (r : Rng) :
    (rrFixture idx d hm aw r).1.away_goals =
      (((r.uniform 0 1).2.randint 0 3).2.randint 0 3).1 :=
  rfl

lemma rrFixture_home_le (idx : Nat) (d : Int) (hm aw : Int) (r : Rng) :
    (rrFixture idx d hm aw r).1.home_goals ≤ 4 := by
  rw [rrFixture_home_goals]
  have h := randint_le (r.uniform 0 1).2 0 3 (by omega)
  split_ifs <;> omega

lemma rrFixture_away_le (idx : Nat) (d : Int) (hm aw : Int) (r : Rng) :
    (rrFixture idx d hm aw r).1.away_goals ≤ 3 := by
  rw [rrFixture_away_goals]
  exact randint_le _ 0 3 (by omega)

lemma mem_rrRound {idx : Nat} {d : Int} {prs : List (Int × Int)} {r : Rng}
    {f : Fixture} (hf : f ∈ (rrRound idx d prs r).1) :
    ∃ hm aw r0, f = (rrFixture idx d hm aw r0).1 := by
  induction prs generalizing r with
  | nil => cases hf
  | cons p rest ih =>
    obtain ⟨hm, aw⟩ := p
    unfold rrRound at hf
    rcases List.mem_cons.1 hf with hhd | htl
    · exact ⟨hm, aw, r, hhd⟩
    · exact ih htl

lemma mem_rrRounds {idx : Nat} {sd : Int} {rounds : List (List (Int × Int))}
    {r : Rng} {f : Fixture} (hf : f ∈ (rrRounds idx sd rounds r).1) :
    ∃ i d hm aw r0, f = (rrFixture i d hm aw r0).1 := by
  induction rounds generalizing idx r with
  | nil => cases hf
  | cons prs rest ih =>
    unfold rrRounds at hf
    rcases List.mem_append.1 hf with hl | hr
    · obtain ⟨hm, aw, r0, he⟩ := mem_rrRound hl
      exact ⟨idx, _, hm, aw, r0, he⟩
    · exact ih hr

lemma imFixture_home_goals (lbl : String) (d : Int) (hm aw : Int) (r : Rng) :
    (imFixture lbl d hm aw r).1.home_goals = (r.next.randint 0 3).1 :=
  rfl

lemma imFixture_away_goals (lbl : String) (d : Int) (hm aw : Int) (r : Rng) :
    (imFixture lbl d hm aw r).1.away_goals =
      ((r.next.randint 0 3).2.randint 0 3).1 :=
  rfl

lemma imFixture_home_le (lbl : String) (d : Int) (hm aw : Int) (r : Rng) :
    (imFixture lbl d hm aw r).1.home_goals ≤ 3 := by
  rw [imFixture_home_goals]
  exact randint_le _ 0 3 (by omega)

lemma imFixture_away_le (lbl : String) (d : Int) (hm aw : Int) (r : Rng) :
    (imFixture lbl d hm aw r).1.away_goals ≤ 3 := by
  rw [imFixture_away_goals]
  exact randint_le _ 0 3 (by omega)

lemma mem_imRound {idx : Nat} {d : Int} {prs : List (Int × Int)} {r : Rng}
    {f : Fixture} (hf : f ∈ (imRound idx d prs r).1) :
    ∃ lbl dd hm aw r0, f = (imFixture lbl dd hm aw r0).1 := by
  induction prs generalizing r with
  | nil => cases hf
  | cons p rest ih =>
    obtain ⟨hm, aw⟩ := p
    unfold imRound at hf
    rcases List.mem_cons.1 hf with hhd | htl
    · exact ⟨toString idx, d, hm, aw, r, hhd⟩
    · exact ih htl

lemma mem_imRounds {idx : Nat} {sd : Int} {rounds : List (List (Int × Int))}
    {r : Rng} {f : Fixture} (hf : f ∈ (imRounds idx sd rounds r).1) :
    ∃ lbl dd hm aw r0, f = (imFixture lbl dd hm aw r0).1 := by
  induction rounds generalizing idx r with
  | nil => cases hf
  | cons prs rest ih =>
    unfold imRounds at hf
    rcases List.mem_append.1 hf with hl | hr
    · exact mem_imRound hl
    · exact ih hr

lemma mem_buildIntermedio {tids : List Int} {sd : Int} {r : Rng} {f : Fixture}
    (hf : f ∈ (buildIntermedioSchedule tids sd r).1) :
    ∃ lbl dd hm aw r0, f = (imFixture lbl dd hm aw r0).1 := by
  unfold buildIntermedioSchedule at hf
  rcases List.mem_append.1 hf with hl | hr
  · rcases List.mem_append.1 hl with h1 | h2
    · exact mem_imRounds h1
    · exact mem_imRounds h2
  · rcases List.mem_singleton.1 hr with rfl
    exact ⟨"Final", _, _, _, _, rfl⟩

/-- C6 (amended): in the apertura/clausura schedule builder every fixture's
score is drawn as `home = randint(0,3) + (1 if uniform(0,1) > 0.6 else 0)`
and `away = randint(0,3)` (so home goals lie in 0-4 and away goals in 0-3),
while the intermedio builder draws both sides plainly from `randint(0,3)`
with no home-advantage increment (home and away goals lie in 0-3). -/
theorem auf_c6_simulated_scores :
    (∀ (idx : Nat) (d : Int) (hm aw : Int) (r : Rng),
      (rrFixture idx d hm aw r).1.home_goals =
        ((r.uniform 0 1).2.randint 0 3).1 +
          (if (3 : ℚ) / 5 < (r.uniform 0 1).1 then 1 else 0) ∧
      (rrFixture idx d hm aw r).1.away_goals =
        (((r.uniform 0 1).2.randint 0 3).2.randint 0 3).1 ∧
      0 ≤ (r.uniform 0 1).1 ∧ (r.uniform 0 1).1 ≤ 1 ∧
      ((r.uniform 0 1).2.randint 0 3).1 ≤ 3) ∧
    (∀ (tids : List Int) (sd : Int) (r : Rng) (f : Fixture),
      f ∈ (buildRoundRobinSchedule tids sd r).1 →
      f.home_goals ≤ 4 ∧ f.away_goals ≤ 3) ∧
    (∀ (lbl : String) (d : Int) (hm aw : Int) (r : Rng),
      (imFixture lbl d hm aw r).1.home_goals = (r.next.randint 0 3).1 ∧
      (imFixture lbl d hm aw r).1.away_goals =
        ((r.next.randint 0 3).2.randint 0 3).1) ∧
    (∀ (tids : List Int) (sd : Int) (r : Rng) (f : Fixture),
      f ∈ (buildIntermedioSchedule tids sd r).1 →
      f.home_goals ≤ 3 ∧ f.away_goals ≤ 3) := by
  refine ⟨?_, ?_, ?_, ?_⟩
  · intro idx d hm aw r
    exact ⟨rrFixture_home_goals idx d hm aw r, rrFixture_away_goals idx d hm aw r,
      uniform01_nonneg r, uniform01_le_one r, randint_le _ 0 3 (by omega)⟩
  · intro tids sd r f hf
    obtain ⟨i, dd, hm, aw, r0, rfl⟩ := mem_rrRounds hf
    exact ⟨rrFixture_home_le i dd hm aw r0, rrFixture_away_le i dd hm aw r0⟩
  · intro lbl d hm aw r
    exact ⟨imFixture_home_goals lbl d hm aw r, imFixture_away_goals lbl d hm aw r⟩
  · intro tids sd r f hf
    obtain ⟨lbl, dd, hm, aw, r0, rfl⟩ := mem_buildIntermedio hf
    exact ⟨imFixture_home_le lbl dd hm aw r0, imFixture_away_le lbl dd hm aw r0⟩

/-- C6, counterexample to the claim as stated: under a random source whose
every uniform(0,1) draw is 1 (greater than 0.6) and whose every
randint(0,3) draw is 3, the claimed rule would force home goals 3 + 1 = 4
for every scheduled fixture of every stage; yet the first intermedio
fixture of a 16-team season has home goals 3 - the intermedio builder
applies no home-advantage increment. -/
theorem auf_c6_counterexample :
    (∀ n : Nat, ((Rng.mk (fun _ => 3) n).uniform 0 1).1 = 1 ∧
      (3 : ℚ) / 5 < ((Rng.mk (fun _ => 3) n).uniform 0 1).1 ∧
      ((Rng.mk (fun _ => 3) n).randint 0 3).1 = 3) ∧
    ((buildIntermedioSchedule
        [1, 2, 3, 4, 5, 6, 7, 8, 9, 10, 11, 12, 13, 14, 15, 16] 0
        (Rng.mk (fun _ => 3) 0)).1.head?.map (fun f => f.home_goals)) =
      some 3 := by
  constructor
  · intro n
    refine ⟨?_, ?_, ?_⟩
    · unfold Rng.uniform clamp01
      norm_num
    · unfold Rng.uniform clamp01
      norm_num
    · unfold Rng.randint
      norm_num
      rfl
  · rfl

/-- Witness for C6: the schedule-range part applied to a concrete two-team
apertura schedule, the membership hypothesis discharged on its only
fixture. -/
theorem auf_c6_simulated_scores_witness :
    (rrFixture 1 0 1 2 (Rng.mk (fun _ => 3) 0)).1 ∈
      (buildRoundRobinSchedule [1, 2] 0 (Rng.mk (fun _ => 3) 0)).1 ∧
    (rrFixture 1 0 1 2 (Rng.mk (fun _ => 3) 0)).1.home_goals ≤ 4 ∧
    (rrFixture 1 0 1 2 (Rng.mk (fun _ => 3) 0)).1.away_goals ≤ 3 := by
  have hm : (rrFixture 1 0 1 2 (Rng.mk (fun _ => 3) 0)).1 ∈
      (buildRoundRobinSchedule [1, 2] 0 (Rng.mk (fun _ => 3) 0)).1 := by
    show (rrFixture 1 0 1 2 (Rng.mk (fun _ => 3) 0)).1 ∈
      [(rrFixture 1 (0 + 7 * ((1 : Int) - 1)) 1 2 (Rng.mk (fun _ => 3) 0)).1]
    exact List.mem_singleton.2 rfl
  exact ⟨hm, auf_c6_simulated_scores.2.1 [1, 2] 0 (Rng.mk (fun _ => 3) 0) _ hm⟩

instance scorerLE.instIsTrans : IsTrans ScorerRow scorerLE := by
  constructor
  intro a b c hab hbc
  unfold scorerLE at hab hbc ⊢
  split_ifs at hab hbc ⊢ <;>
    first
      | omega
      | exact le_trans hab hbc

instance scorerLE.instIsTotal : IsTotal ScorerRow scorerLE := by
  constructor
  intro a b
  unfold scorerLE
  split_ifs <;>
    first
      | omega
      | exact le_total a.player b.player

/-- C7: the scorers query returns per-(player, team) goal counts over the
stage-expanded matches, ordered by goal count descending then player name
ascending, truncated to the caller limit (which the API boundary restricts
to 1-100); on a dataset with four scorers of 5, 5, 3 and 1 goals,
`top = 3` returns exactly the two 5-goal scorers in name order followed by
the 3-goal scorer. -/
theorem auf_c7_scorers :
    (∀ (st : Store) (season : Int) (stage : String) (top : Nat),
      (listScorers st season stage top).Pairwise scorerLE ∧
      (listScorers st season stage top).length ≤ top ∧
      (∀ row ∈ listScorers st season stage top,
        ∃ p ∈ st.players, ∃ t ∈ st.teams,
          row.player_id = p.id ∧ row.player = p.full_name ∧
          row.team_id = t.id ∧ row.team = t.name ∧ t.id = p.team_id ∧
          row.goals = goalCount st season (stagesForQuery stage) p ∧
          0 < row.goals)) ∧
    (∀ top : Int, apiScorersTopValid top = true ↔ 1 ≤ top ∧ top ≤ 100) ∧
    listScorers
      ⟨[⟨1, "Alfa", "a"⟩, ⟨2, "Beta", "b"⟩],
       [⟨1, "Bruno", 1, none, none, none⟩, ⟨2, "Ana", 1, none, none, none⟩,
        ⟨3, "Carlos", 2, none, none, none⟩, ⟨4, "Diego", 2, none, none, none⟩],
       [⟨1, 2024, "apertura", 1, 2⟩],
       [⟨1, 10, 1, some 1, "goal", ""⟩, ⟨1, 12, 1, some 1, "goal", ""⟩,
        ⟨1, 14, 1, some 1, "goal", ""⟩, ⟨1, 16, 1, some 1, "goal", ""⟩,
        ⟨1, 18, 1, some 1, "goal", ""⟩, ⟨1, 20, 1, some 2, "goal", ""⟩,
        ⟨1, 22, 1, some 2, "goal", ""⟩, ⟨1, 24, 1, some 2, "goal", ""⟩,
        ⟨1, 26, 1, some 2, "goal", ""⟩, ⟨1, 28, 1, some 2, "goal", ""⟩,
        ⟨1, 30, 2, some 3, "goal", ""⟩, ⟨1, 32, 2, some 3, "goal", ""⟩,
        ⟨1, 34, 2, some 3, "goal", ""⟩, ⟨1, 36, 2, some 4, "goal", ""⟩]⟩
      2024 "apertura" 3 =
      [⟨2, "Ana", 1, "Alfa", 5⟩, ⟨1, "Bruno", 1, "Alfa", 5⟩,
       ⟨3, "Carlos", 2, "Beta", 3⟩] := by
  refine ⟨?_, ?_, ?_⟩
  · intro st season stage top
    refine ⟨?_, ?_, ?_⟩
    · unfold listScorers
      exact (List.sorted_insertionSort scorerLE _).sublist (List.take_sublist _ _)
    · unfold listScorers
      rw [List.length_take]
      omega
    · intro row hrow
      unfold listScorers at hrow
      have hmem : row ∈ (st.players.filterMap (fun p =>
          match st.teams.find? (fun t => t.id = p.team_id) with
          | none => none
          | some t =>
            let g := goalCount st season (stagesForQuery stage) p
            if g = 0 then none
            else some { player_id := p.id, player := p.full_name, team_id := t.id,
                        team := t.name, goals := g })) := by
        have h1 := (List.take_sublist _ _).subset hrow
        exact (List.mem_insertionSort scorerLE).1 h1
      obtain ⟨p, hp, hf⟩ := List.mem_filterMap.1 hmem
      rcases hfind : st.teams.find? (fun t => t.id = p.team_id) with _ | t
      · rw [hfind] at hf
        cases hf
      · rw [hfind] at hf
        by_cases hg : goalCount st season (stagesForQuery stage) p = 0
        · simp only [hg, if_pos rfl] at hf
          cases hf
        · simp only [if_neg hg] at hf
          refine ⟨p, hp, t, List.mem_of_find?_eq_some hfind, ?_⟩
          have ht : t.id = p.team_id := by
            have := List.find?_some hfind
            simpa using this
          have hrow_eq := Option.some.inj hf
          subst hrow_eq
          exact ⟨rfl, rfl, rfl, rfl, ht, rfl, Nat.pos_of_ne_zero hg⟩
  · intro top
    unfold apiScorersTopValid
    simp
  · have hgroups : List.filterMap (fun p : PlayerRow =>
        match List.find? (fun t => decide (t.id = p.team_id))
            ([⟨1, "Alfa", "a"⟩, ⟨2, "Beta", "b"⟩] : List TeamRow) with
        | none => (none : Option ScorerRow)
        | some t =>
          let g := goalCount
            ⟨[⟨1, "Alfa", "a"⟩, ⟨2, "Beta", "b"⟩],
             [⟨1, "Bruno", 1, none, none, none⟩, ⟨2, "Ana", 1, none, none, none⟩,
              ⟨3, "Carlos", 2, none, none, none⟩, ⟨4, "Diego", 2, none, none, none⟩],
             [⟨1, 2024, "apertura", 1, 2⟩],
             [⟨1, 10, 1, some 1, "goal", ""⟩, ⟨1, 12, 1, some 1, "goal", ""⟩,
              ⟨1, 14, 1, some 1, "goal", ""⟩, ⟨1, 16, 1, some 1, "goal", ""⟩,
              ⟨1, 18, 1, some 1, "goal", ""⟩, ⟨1, 20, 1, some 2, "goal", ""⟩,
              ⟨1, 22, 1, some 2, "goal", ""⟩, ⟨1, 24, 1, some 2, "goal", ""⟩,
              ⟨1, 26, 1, some 2, "goal", ""⟩, ⟨1, 28, 1, some 2, "goal", ""⟩,
              ⟨1, 30, 2, some 3, "goal", ""⟩, ⟨1, 32, 2, some 3, "goal", ""⟩,
              ⟨1, 34, 2, some 3, "goal", ""⟩, ⟨1, 36, 2, some 4, "goal", ""⟩]⟩
            2024 (stagesForQuery "apertura") p
          if g = 0 then none
          else some { player_id := p.id, player := p.full_name, team_id := t.id,
                      team := t.name, goals := g })
        [⟨1, "Bruno", 1, none, none, none⟩, ⟨2, "Ana", 1, none, none, none⟩,
         ⟨3, "Carlos", 2, none, none, none⟩, ⟨4, "Diego", 2, none, none, none⟩] =
        [⟨1, "Bruno", 1, "Alfa", 5⟩, ⟨2, "Ana", 1, "Alfa", 5⟩,
         ⟨3, "Carlos", 2, "Beta", 3⟩, ⟨4, "Diego", 2, "Beta", 1⟩] := by
      decide
    show (List.insertionSort scorerLE _).take 3 = _
    rw [hgroups]
    have h1 : scorerLE ⟨3, "Carlos", 2, "Beta", 3⟩ ⟨4, "Diego", 2, "Beta", 1⟩ := by
      unfold scorerLE
      norm_num
    have h2 : scorerLE ⟨2, "Ana", 1, "Alfa", 5⟩ ⟨3, "Carlos", 2, "Beta", 3⟩ := by
      unfold scorerLE
      norm_num
    have h3 : ¬scorerLE ⟨1, "Bruno", 1, "Alfa", 5⟩ ⟨2, "Ana", 1, "Alfa", 5⟩ := by
      unfold scorerLE
      rw [if_pos rfl, not_le, String.lt_iff_toList_lt]
      decide
    have h4 : scorerLE ⟨1, "Bruno", 1, "Alfa", 5⟩ ⟨3, "Carlos", 2, "Beta", 3⟩ := by
      unfold scorerLE
      norm_num
    simp only [List.insertionSort, List.orderedInsert, h1, h2, h3, h4,
      if_true, if_false, ite_true, ite_false, List.take]

/-- Witness for C7: the API-boundary part applied at the default limit 20,
its hypothesis discharged concretely. -/
theorem auf_c7_scorers_witness :
    apiScorersTopValid 20 = true ∧ (1 ≤ (20 : Int) ∧ (20 : Int) ≤ 100) :=
  ⟨by decide, (auf_c7_scorers.2.1 20).1 (by decide)⟩

lemma mem_cardsByTeam {st : Store} {season : Int} {stage : String}
    {row : CardRow} :
    row ∈ cardsByTeam st season stage ↔
      ∃ t ∈ st.teams,
        teamEvents st season (stagesForQuery stage) t.id ≠ [] ∧
        row = { team_id := t.id, team := t.name, logo_key := t.logo_key,
                yellow := ((teamEvents st season (stagesForQuery stage) t.id).filter
                  (fun e => decide (e.type = "yellow"))).length,
                red := ((teamEvents st season (stagesForQuery stage) t.id).filter
                  (fun e => decide (e.type = "red"))).length } := by
  unfold cardsByTeam
  rw [List.mem_insertionSort, List.mem_filterMap]
  constructor
  · rintro ⟨t, ht, hg⟩
    by_cases he : (teamEvents st season (stagesForQuery stage) t.id).isEmpty
    · rw [if_pos he] at hg
      cases hg
    · rw [if_neg he] at hg
      refine ⟨t, ht, ?_, (Option.some.inj hg).symm⟩
      simpa [List.isEmpty_iff] using he
  · rintro ⟨t, ht, hne, rfl⟩
    refine ⟨t, ht, ?_⟩
    rw [if_neg (by simpa [List.isEmpty_iff] using hne)]

/-- C10: `cards_by_team` returns a row for a team exactly when that team
has at least one event of any type among the stage-expanded matches; a team
with events but no cards gets a row with zero yellow and red counts; and
`discipline_table` enriches exactly the `cards_by_team` rows, so a team
absent there is absent from the discipline table too. -/
theorem auf_c10_cards_iff_events (st : Store) (season : Int) (stage : String) :
    (∀ t ∈ st.teams,
      ((∃ row ∈ cardsByTeam st season stage, row.team_id = t.id) ↔
        ∃ e ∈ st.events, e.team_id = t.id ∧
          eventInStage st season (stagesForQuery stage) e)) ∧
    (∀ row ∈ cardsByTeam st season stage,
      (∀ e ∈ teamEvents st season (stagesForQuery stage) row.team_id,
          e.type ≠ "yellow" ∧ e.type ≠ "red") →
        row.yellow = 0 ∧ row.red = 0) ∧
    (disciplineTable st season stage).map (fun d => d.equipo) =
      (cardsByTeam st season stage).map (fun r => r.team) := by
  refine ⟨?_, ?_, ?_⟩
  · intro t ht
    constructor
    · rintro ⟨row, hrow, hid⟩
      obtain ⟨t2, _ht2, hne, rfl⟩ := mem_cardsByTeam.1 hrow
      obtain ⟨e, he⟩ := List.exists_mem_of_ne_nil _ hne
      have hmem := List.mem_filter.1 he
      have hprops := hmem.2
      simp only [Bool.and_eq_true, decide_eq_true_eq] at hprops
      refine ⟨e, hmem.1, ?_, hprops.2⟩
      rw [← hid]
      exact hprops.1
    · rintro ⟨e, he, hteam, hstage⟩
      have hmem : e ∈ teamEvents st season (stagesForQuery stage) t.id := by
        unfold teamEvents
        rw [List.mem_filter]
        exact ⟨he, by simp [hteam, hstage]⟩
      exact ⟨_, mem_cardsByTeam.2 ⟨t, ht, List.ne_nil_of_mem hmem, rfl⟩, rfl⟩
  · intro row hrow hno
    obtain ⟨t2, _ht2, _hne, rfl⟩ := mem_cardsByTeam.1 hrow
    constructor
    · show (List.filter _ _).length = 0
      rw [List.length_eq_zero, List.filter_eq_nil_iff]
      intro e he
      simp only [decide_eq_true_eq]
      exact (hno e he).1
    · show (List.filter _ _).length = 0
      rw [List.length_eq_zero, List.filter_eq_nil_iff]
      intro e he
      simp only [decide_eq_true_eq]
      exact (hno e he).2
  · unfold disciplineTable
    rw [List.map_map]
    rfl

/-- Witness for C10: the event-existence direction applied to a concrete
store with one yellow-card event. -/
theorem auf_c10_cards_iff_events_witness :
    ∃ e ∈ (⟨[⟨1, "Alfa", "a"⟩], [], [⟨1, 2024, "apertura", 1, 2⟩],
        [⟨1, 20, 1, none, "yellow", ""⟩]⟩ : Store).events,
      e.team_id = (⟨1, "Alfa", "a"⟩ : TeamRow).id ∧
        eventInStage ⟨[⟨1, "Alfa", "a"⟩], [], [⟨1, 2024, "apertura", 1, 2⟩],
          [⟨1, 20, 1, none, "yellow", ""⟩]⟩ 2024 (stagesForQuery "apertura") e :=
  ((auf_c10_cards_iff_events
      ⟨[⟨1, "Alfa", "a"⟩], [], [⟨1, 2024, "apertura", 1, 2⟩],
        [⟨1, 20, 1, none, "yellow", ""⟩]⟩ 2024 "apertura").1
    ⟨1, "Alfa", "a"⟩ (by decide)).1 (by decide)

lemma buildPlayerRows_error_iff (tid : Int) (ps : List PlayerEntry) :
    (∃ e, buildPlayerRows tid ps = .error e) ↔
      ∃ p ∈ ps, containsPlaceholder p.full_name = true := by
  induction ps with
  | nil =>
    constructor
    · rintro ⟨e, he⟩
      cases he
    · rintro ⟨p, hp, _⟩
      cases hp
  | cons p rest ih =>
    unfold buildPlayerRows
    by_cases hp : containsPlaceholder p.full_name = true
    · rw [if_pos hp]
      exact ⟨fun _ => ⟨p, List.mem_cons_self p rest, hp⟩,
        fun _ => ⟨"Seed inválida: nombre Placeholder detectado", rfl⟩⟩
    · rw [if_neg hp]
      constructor
      · rintro ⟨e, he⟩
        rcases hrest : buildPlayerRows tid rest with e2 | rows
        · obtain ⟨p2, hp2, hpl⟩ := ih.1 ⟨e2, hrest⟩
          exact ⟨p2, List.mem_cons_of_mem p hp2, hpl⟩
        · rw [hrest] at he
          cases he
      · rintro ⟨p2, hp2, hpl⟩
        rcases List.mem_cons.1 hp2 with rfl | hmem
        · exact absurd hpl hp
        · obtain ⟨e, he⟩ := ih.2 ⟨p2, hmem, hpl⟩
          exact ⟨e, by rw [he]; rfl⟩

lemma insertPlayers_error_iff (teams : List Team) (roster : List RosterTeam) :
    (∃ e, insertPlayers teams roster = .error e) ↔
      ∃ rt ∈ roster, ∃ tid, teamLookup teams rt.name = some tid ∧ tid ≠ 0 ∧
        ∃ p ∈ rt.players, containsPlaceholder p.full_name = true := by
  induction roster with
  | nil =>
    constructor
    · rintro ⟨e, he⟩
      cases he
    · rintro ⟨rt, hrt, _⟩
      cases hrt
  | cons rt rest ih =>
    unfold insertPlayers
    rcases hlk : teamLookup teams rt.name with _ | tid
    all_goals dsimp only
    · rw [ih]
      constructor
      · rintro ⟨rt2, hrt2, h⟩
        exact ⟨rt2, List.mem_cons_of_mem rt hrt2, h⟩
      · rintro ⟨rt2, hrt2, tid, htid, h⟩
        rcases List.mem_cons.1 hrt2 with rfl | hmem
        · rw [hlk] at htid
          cases htid
        · exact ⟨rt2, hmem, tid, htid, h⟩
    · by_cases h0 : tid = 0
      · rw [if_pos h0, ih]
        constructor
        · rintro ⟨rt2, hrt2, h⟩
          exact ⟨rt2, List.mem_cons_of_mem rt hrt2, h⟩
        · rintro ⟨rt2, hrt2, tid2, htid2, hne, h⟩
          rcases List.mem_cons.1 hrt2 with rfl | hmem
          · rw [hlk] at htid2
            have heq := Option.some.inj htid2
            subst heq
            exact absurd h0 (by simpa using hne)
          · exact ⟨rt2, hmem, tid2, htid2, hne, h⟩
      · rw [if_neg h0]
        rcases hbr : buildPlayerRows tid rt.players with e | rows
        · constructor
          · intro _
            obtain ⟨p, hp, hpl⟩ := (buildPlayerRows_error_iff tid rt.players).1 ⟨e, hbr⟩
            exact ⟨rt, List.mem_cons_self rt rest, tid, hlk, h0, p, hp, hpl⟩
          · intro _
            exact ⟨e, rfl⟩
        · constructor
          · rintro ⟨e, he⟩
            rcases hrest : insertPlayers teams rest with e2 | rows2
            · obtain ⟨rt2, hrt2, h⟩ := ih.1 ⟨e2, hrest⟩
              exact ⟨rt2, List.mem_cons_of_mem rt hrt2, h⟩
            · rw [hrest] at he
              cases he
          · rintro ⟨rt2, hrt2, tid2, htid2, hne2, p, hp, hpl⟩
            rcases List.mem_cons.1 hrt2 with rfl | hmem
            · exfalso
              rw [hlk] at htid2
              have heq := Option.some.inj htid2
              subst heq
              obtain ⟨e, he⟩ :=
                (buildPlayerRows_error_iff tid rt2.players).2 ⟨p, hp, hpl⟩
              rw [he] at hbr
              cases hbr
            · obtain ⟨e, he⟩ := ih.2 ⟨rt2, hmem, tid2, htid2, hne2, p, hp, hpl⟩
              exact ⟨e, by rw [he]; rfl⟩

lemma seedLoop_preserves (teams : List Team)
    (rosters : List (Int × List RosterTeam)) (acc : CommittedStore) :
    (seedLoop teams rosters acc).1.schemaVersion = acc.schemaVersion ∧
    (seedLoop teams rosters acc).1.teams = acc.teams ∧
    (seedLoop teams rosters acc).1.seasons = acc.seasons ∧
    (seedLoop teams rosters acc).1.stages = acc.stages := by
  induction rosters generalizing acc with
  | nil => exact ⟨rfl, rfl, rfl, rfl⟩
  | cons sr rest ih =>
    obtain ⟨season, roster⟩ := sr
    unfold seedLoop
    rcases hip : insertPlayers teams roster with e | rows
    · exact ⟨rfl, rfl, rfl, rfl⟩
    · exact ih _

/-- C9 (amended): player insertion raises the placeholder error exactly
when some roster team that resolves to a (nonzero) team id has a player
whose lower-cased name contains "placeholder"; a failed seeding run stops
with the schema-version marker unwritten (so the next startup check treats
the store as stale and rebuilds it), but the base rows committed by
`_insert_base_rows` remain in the store; and when no matched roster name
contains the substring, player insertion succeeds. -/
theorem auf_c9_placeholder_abort :
    (∀ (teams : List Team) (roster : List RosterTeam),
      ((∃ e, insertPlayers teams roster = .error e) ↔
        ∃ rt ∈ roster, ∃ tid, teamLookup teams rt.name = some tid ∧ tid ≠ 0 ∧
          ∃ p ∈ rt.players, containsPlaceholder p.full_name = true)) ∧
    (∀ (teams : List Team) (rosters : List (Int × List RosterTeam)),
      (seedDatabase teams rosters).2.isSome = true →
        (seedDatabase teams rosters).1.schemaVersion = none ∧
        (seedDatabase teams rosters).1.teams = teams) ∧
    (∀ (teams : List Team) (roster : List RosterTeam),
      (∀ rt ∈ roster, ∀ p ∈ rt.players, containsPlaceholder p.full_name = false) →
        ∃ rows, insertPlayers teams roster = .ok rows) := by
  refine ⟨insertPlayers_error_iff, ?_, ?_⟩
  · intro teams rosters h
    unfold seedDatabase at h ⊢
    dsimp only at h ⊢
    rcases hsl : seedLoop teams rosters
        { teams := teams, seasons := rosters.map Prod.fst, stages := stageNames,
          players := [], seasonsSeeded := [], schemaVersion := none } with ⟨acc, opt⟩
    rw [hsl] at h
    cases opt with
    | none => cases h
    | some e =>
      have hp := seedLoop_preserves teams rosters
        { teams := teams, seasons := rosters.map Prod.fst, stages := stageNames,
          players := [], seasonsSeeded := [], schemaVersion := none }
      rw [hsl] at hp
      exact ⟨hp.1, hp.2.1⟩
  · intro teams roster hno
    rcases hip : insertPlayers teams roster with e | rows
    · exfalso
      obtain ⟨rt, hrt, _tid, _, _, p, hp, hpl⟩ :=
        (insertPlayers_error_iff teams roster).1 ⟨e, hip⟩
      rw [hno rt hrt p hp] at hpl
      cases hpl
    · exact ⟨rows, rfl⟩

/-- Witness for C9: the no-placeholder success part applied to a concrete
one-team roster. -/
theorem auf_c9_placeholder_abort_witness :
    ∃ rows, insertPlayers [⟨1, "Juventud", "JUV", "Las Piedras", "Parque", "juv", false⟩]
      [⟨"Juventud", [⟨"Juan Pérez", none, none, none⟩]⟩] = .ok rows :=
  auf_c9_placeholder_abort.2.2
    [⟨1, "Juventud", "JUV", "Las Piedras", "Parque", "juv", false⟩]
    [⟨"Juventud", [⟨"Juan Pérez", none, none, none⟩]⟩] (by decide)

/-- C9, counterexample to the claim as stated: seeding a store whose roster
holds a placeholder-named player raises, yet the teams/seasons/stages base
rows committed by `_insert_base_rows` before the failure remain committed -
a partial store is left behind (only the missing schema-version marker
makes the next startup delete and rebuild it). -/
theorem auf_c9_counterexample :
    ((seedDatabase [⟨1, "Juventud", "JUV", "Las Piedras", "Parque", "juv", false⟩]
        [(2024, [⟨"Juventud", [⟨"Placeholder Uno", none, none, none⟩]⟩])]).2).isSome =
      true ∧
    (seedDatabase [⟨1, "Juventud", "JUV", "Las Piedras", "Parque", "juv", false⟩]
        [(2024, [⟨"Juventud", [⟨"Placeholder Uno", none, none, none⟩]⟩])]).1.teams ≠
      [] := by
  decide

/-! ### Helper lemmas for the round-robin scheduler -/

lemma countP_eq_one_of_unique {α : Type} {l : List α} {p : α → Bool} {x : α}
    (hnd : l.Nodup) (hx : x ∈ l) (hpx : p x = true)
    (huniq : ∀ y ∈ l, p y = true → y = x) : l.countP p = 1 := by
  induction l with
  | nil => cases hx
  | cons a rest ih =>
    rw [List.countP_cons]
    rw [List.nodup_cons] at hnd
    rcases List.mem_cons.1 hx with rfl | hmem
    · have hz : rest.countP p = 0 := List.countP_eq_zero.2
        (fun b hb hpb => hnd.1 ((huniq b (List.mem_cons_of_mem _ hb) hpb) ▸ hb))
      simp [hz, hpx]
    · have hpa : p a = false := by
        rcases hb : p a with _ | _
        · rfl
        · exact absurd hmem ((huniq a (List.mem_cons_self a rest) hb) ▸ hnd.1)
      rw [ih hnd.2 hmem (fun y hy hpy => huniq y (List.mem_cons_of_mem _ hy) hpy)]
      simp [hpa]

lemma countP_le_one_of_unique {α : Type} {l : List α} {p : α → Bool}
    (hnd : l.Nodup)
    (h : ∀ y ∈ l, ∀ z ∈ l, p y = true → p z = true → y = z) :
    l.countP p ≤ 1 := by
  induction l with
  | nil => simp
  | cons a rest ih =>
    rw [List.countP_cons]
    rw [List.nodup_cons] at hnd
    rcases hb : p a with _ | _
    · simpa using ih hnd.2
        (fun y hy z hz hpy hpz => h y (List.mem_cons_of_mem _ hy)
          z (List.mem_cons_of_mem _ hz) hpy hpz)
    · have hz : rest.countP p = 0 := List.countP_eq_zero.2
        (fun b hbm hpb =>
          hnd.1 ((h b (List.mem_cons_of_mem _ hbm) a (List.mem_cons_self a rest)
            hpb hb) ▸ hbm))
      simp [hz]

lemma roundRobinAux_eq (k : Nat) : ∀ (i : Nat) (ids : List Int),
    roundRobinAux k i ids = (List.range k).map
      (fun j => roundPairings (decide ((i + j) % 2 = 1)) (rotIter j ids)) := by
  induction k with
  | zero => intro i ids; rfl
  | succ k ih =>
    intro i ids
    rw [List.range_succ_eq_map]
    unfold roundRobinAux
    rw [ih (i + 1) (rotateOnce ids)]
    simp only [List.map_cons, List.map_map]
    congr 1
    case e_tail =>
      refine List.map_congr_left ?_
      intro j hj
      simp only [Function.comp_apply]
      rw [show i + 1 + j = i + (j + 1) from by omega]
      simp only [Nat.succ_eq_add_one]
      rw [show rotIter (j + 1) ids = rotIter j (rotateOnce ids) from rfl]

lemma roundRobinAux_closed (k : Nat) (i : Nat) (ids : List Int) :
    roundRobinAux k i ids = (List.range k).map
      (fun j => roundPairings (decide ((i + j) % 2 = 1)) (rotIter j ids)) :=
  roundRobinAux_eq k i ids

lemma rotIter_cons (j : Nat) (a : Int) (t : List Int) :
    rotIter j (a :: t) = a :: t.rotate (j * (t.length - 1)) := by
  induction j generalizing t with
  | zero => simp [rotIter]
  | succ j ih =>
    show rotIter j (rotateOnce (a :: t)) = _
    rw [show rotateOnce (a :: t) = a :: t.rotate (t.length - 1) from rfl]
    rw [ih (t.rotate (t.length - 1))]
    rw [List.rotate_rotate, List.length_rotate]
    congr 2
    ring

lemma roundRobin_closed (tids : List Int) :
    roundRobin tids = (List.range ((addBye tids).length - 1)).map
      (fun i => roundPairings (decide (i % 2 = 1)) (rotIter i (addBye tids))) := by
  unfold roundRobin
  rw [roundRobinAux_closed]
  apply List.map_congr_left
  intro j _
  rw [Nat.zero_add]

lemma addBye_length_even (tids : List Int) : (addBye tids).length % 2 = 0 := by
  unfold addBye
  by_cases h : tids.length % 2 = 1
  · rw [if_pos h, List.length_append]
    simp
    omega
  · rw [if_neg h]
    omega

lemma addBye_nodup {tids : List Int} (hnd : tids.Nodup)
    (hs : (-1 : Int) ∉ tids) : (addBye tids).Nodup := by
  unfold addBye
  by_cases h : tids.length % 2 = 1
  · rw [if_pos h]
    rw [List.nodup_append]
    exact ⟨hnd, List.nodup_singleton _,
      fun x hx hx2 => hs ((List.mem_singleton.1 hx2) ▸ hx)⟩
  · rw [if_neg h]
    exact hnd

lemma mem_addBye {tids : List Int} {x : Int} (hx : x ∈ addBye tids)
    (hxne : x ≠ -1) : x ∈ tids := by
  unfold addBye at hx
  by_cases h : tids.length % 2 = 1
  · rw [if_pos h] at hx
    rcases List.mem_append.1 hx with h1 | h2
    · exact h1
    · exact absurd (List.mem_singleton.1 h2) hxne
  · rwa [if_neg h] at hx

lemma mem_addBye_of_mem {tids : List Int} {x : Int} (hx : x ∈ tids) :
    x ∈ addBye tids := by
  unfold addBye
  by_cases h : tids.length % 2 = 1
  · rw [if_pos h]
    exact List.mem_append_left _ hx
  · rwa [if_neg h]

lemma arr_getD_home (a : Int) (t : List Int) (i j : Nat)
    (hj : j < (t.length + 1) / 2) :
    (a :: t.rotate (i * (t.length - 1))).getD j 0 = circleHome a t i j := by
  rcases j with _ | j
  · simp [circleHome]
  · unfold circleHome
    rw [if_neg (Nat.succ_ne_zero j)]
    have hj' : j < t.length := by omega
    have hm : 1 ≤ t.length := by omega
    have hlt : (j + i * (t.length - 1)) % t.length < t.length :=
      Nat.mod_lt _ (by omega)
    rw [show (a :: t.rotate (i * (t.length - 1))).getD (j + 1) 0 =
          (t.rotate (i * (t.length - 1))).getD j 0 from rfl]
    simp only [Nat.add_sub_cancel]
    rw [List.getD_eq_getElem _ _ (by simpa using hj'),
        List.getD_eq_getElem _ _ hlt]
    rw [List.getElem_rotate]

lemma arr_getD_away (a : Int) (t : List Int) (i j : Nat)
    (hj : j < (t.length + 1) / 2) :
    (a :: t.rotate (i * (t.length - 1))).getD (t.length + 1 - 1 - j) 0 =
      circleAway t i j := by
  have hm : 1 ≤ t.length := by omega
  have hmj : t.length + 1 - 1 - j = (t.length - 1 - j) + 1 := by omega
  rw [hmj]
  unfold circleAway
  have hj' : t.length - 1 - j < t.length := by omega
  have hlt : (t.length - 1 - j + i * (t.length - 1)) % t.length < t.length :=
    Nat.mod_lt _ (by omega)
  rw [show (a :: t.rotate (i * (t.length - 1))).getD ((t.length - 1 - j) + 1) 0 =
        (t.rotate (i * (t.length - 1))).getD (t.length - 1 - j) 0 from rfl]
  rw [List.getD_eq_getElem _ _ (by simpa using hj'),
      List.getD_eq_getElem _ _ hlt]
  rw [List.getElem_rotate]

lemma roundPairings_arr (swap : Bool) (a : Int) (t : List Int) (i : Nat) :
    roundPairings swap (a :: t.rotate (i * (t.length - 1))) =
      (List.range ((t.length + 1) / 2)).filterMap (circleSlot swap a t i) := by
  unfold roundPairings circleSlot
  simp only [List.length_cons, List.length_rotate]
  apply List.filterMap_congr
  intro j hj
  rw [List.mem_range] at hj
  have hh := arr_getD_home a t i j hj
  have ha := arr_getD_away a t i j hj
  simp only [hh, ha]

lemma natCast_msub (m a : Nat) (h : a ≤ m) :
    ((m - a : Nat) : ZMod m) = -((a : Nat) : ZMod m) := by
  have hm : (m - a) + a = m := by omega
  have hz : ((m - a : Nat) : ZMod m) + ((a : Nat) : ZMod m) = 0 := by
    rw [← Nat.cast_add, hm, ZMod.natCast_self]
  exact eq_neg_of_add_eq_zero_left hz

lemma zmod_cast_eq_iff (m A e : Nat) (he : e < m) :
    ((A : Nat) : ZMod m) = ((e : Nat) : ZMod m) ↔ A % m = e := by
  rw [ZMod.natCast_eq_natCast_iff', Nat.mod_eq_of_lt he]

lemma homeIdx_cast (m i j : Nat) (hm : 1 ≤ m) (h1 : 1 ≤ j) :
    ((j - 1 + i * (m - 1) : Nat) : ZMod m) =
      (j : ZMod m) - 1 - (i : ZMod m) := by
  have hj : ((j - 1 : Nat) : ZMod m) = (j : ZMod m) - 1 := by
    have hjj : (j - 1) + 1 = j := by omega
    have : ((j - 1 : Nat) : ZMod m) + 1 = (j : ZMod m) := by
      rw [show ((j - 1 : Nat) : ZMod m) + 1 = ((j - 1 + 1 : Nat) : ZMod m) from by
        push_cast; ring]
      rw [hjj]
    exact eq_sub_of_add_eq this
  push_cast
  rw [hj, natCast_msub m 1 hm]
  push_cast
  ring

lemma awayIdx_cast (m i j : Nat) (hj : j + 1 ≤ m) :
    ((m - 1 - j + i * (m - 1) : Nat) : ZMod m) =
      -1 - (j : ZMod m) - (i : ZMod m) := by
  have h1 : m - 1 - j = m - (1 + j) := by omega
  push_cast
  rw [h1, natCast_msub m (1 + j) (by omega), natCast_msub m 1 (by omega)]
  push_cast
  ring

lemma two_mul_half (m : Nat) (hmo : m % 2 = 1) :
    (2 : ZMod m) * (((m + 1) / 2 : Nat) : ZMod m) = 1 := by
  have h : 2 * ((m + 1) / 2) = m + 1 := by omega
  have : (2 : ZMod m) * (((m + 1) / 2 : Nat) : ZMod m) =
      ((2 * ((m + 1) / 2) : Nat) : ZMod m) := by push_cast; ring
  rw [this, h]
  push_cast
  rw [ZMod.natCast_self]
  ring

lemma two_mul_inj {m : Nat} (hmo : m % 2 = 1) {x y : ZMod m}
    (h : 2 * x = 2 * y) : x = y := by
  have h2 := two_mul_half m hmo
  calc x = 1 * x := (one_mul x).symm
  _ = ((2 : ZMod m) * (((m + 1) / 2 : Nat) : ZMod m)) * x := by rw [h2]
  _ = (((m + 1) / 2 : Nat) : ZMod m) * (2 * x) := by ring
  _ = (((m + 1) / 2 : Nat) : ZMod m) * (2 * y) := by rw [h]
  _ = ((2 : ZMod m) * (((m + 1) / 2 : Nat) : ZMod m)) * y := by ring
  _ = 1 * y := by rw [h2]
  _ = y := one_mul y

lemma natCast_inj_of_lt {m j1 j2 : Nat}
    (h : (j1 : ZMod m) = (j2 : ZMod m)) (h1 : j1 < m) (h2 : j2 < m) :
    j1 = j2 := by
  have hmod := (ZMod.natCast_eq_natCast_iff' j1 j2 m).1 h
  rwa [Nat.mod_eq_of_lt h1, Nat.mod_eq_of_lt h2] at hmod

lemma natCast_add_ne_zero {m j1 j2 : Nat}
    (h : (j1 : ZMod m) + (j2 : ZMod m) = 0)
    (hpos : 1 ≤ j1 + j2) (hlt : j1 + j2 < m) : False := by
  haveI : NeZero m := ⟨by omega⟩
  have hc : ((j1 + j2 : Nat) : ZMod m) = 0 := by push_cast; exact h
  have hdvd := (ZMod.natCast_zmod_eq_zero_iff_dvd _ _).1 hc
  have := Nat.le_of_dvd (by omega) hdvd
  omega

lemma val_add_neg_val {m : Nat} (hm : 1 ≤ m) {z : ZMod m} (hz : z ≠ 0) :
    z.val + (-z).val = m := by
  haveI : NeZero m := ⟨by omega⟩
  have h1 : ((z.val + (-z).val : Nat) : ZMod m) = 0 := by
    push_cast
    rw [ZMod.natCast_rightInverse z, ZMod.natCast_rightInverse (-z)]
    ring
  have h2 := (ZMod.natCast_zmod_eq_zero_iff_dvd _ m).1 h1
  have hv1 : z.val < m := ZMod.val_lt z
  have hv2 : (-z).val < m := ZMod.val_lt (-z)
  have hz1 : z.val ≠ 0 := fun h => hz ((ZMod.val_eq_zero z).1 h)
  have hz2 : (-z).val ≠ 0 := by
    intro h
    have hnz : -z = 0 := (ZMod.val_eq_zero (-z)).1 h
    exact hz (by rwa [neg_eq_zero] at hnz)
  have hle : m ≤ z.val + (-z).val := Nat.le_of_dvd (by omega) h2
  have hsub : m ∣ (z.val + (-z).val - m) := Nat.dvd_sub' h2 (dvd_refl m)
  rcases Nat.eq_zero_or_pos (z.val + (-z).val - m) with hz0 | hzpos
  · omega
  · have := Nat.le_of_dvd hzpos hsub
    omega

lemma getD_inj {t : List Int} (hnd : t.Nodup) {p q : Nat}
    (hp : p < t.length) (hq : q < t.length)
    (h : t.getD p 0 = t.getD q 0) : p = q := by
  rw [List.getD_eq_getElem _ _ hp, List.getD_eq_getElem _ _ hq] at h
  exact (List.Nodup.getElem_inj_iff hnd).1 h

lemma getD_mem {t : List Int} {p : Nat} (hp : p < t.length) :
    t.getD p 0 ∈ t := by
  rw [List.getD_eq_getElem _ _ hp]
  exact List.getElem_mem hp

lemma circleAway_mem {t : List Int} (i j : Nat) (hm : 1 ≤ t.length) :
    circleAway t i j ∈ t := by
  unfold circleAway
  exact getD_mem (Nat.mod_lt _ (by omega))

lemma circleHome_mem {a : Int} {t : List Int} (i j : Nat) (hm : 1 ≤ t.length) :
    circleHome a t i j ∈ a :: t := by
  unfold circleHome
  split
  · exact List.mem_cons_self a t
  · exact List.mem_cons_of_mem a (getD_mem (Nat.mod_lt _ (by omega)))

lemma circleHome_mem_t {a : Int} {t : List Int} {i j : Nat} (hj : 1 ≤ j)
    (hm : 1 ≤ t.length) : circleHome a t i j ∈ t := by
  unfold circleHome
  rw [if_neg (by omega)]
  exact getD_mem (Nat.mod_lt _ (by omega))

lemma pairMem_iff (x y : Int) (ps : List (Int × Int)) :
    pairMem x y ps = true ↔ (x, y) ∈ ps ∨ (y, x) ∈ ps := by
  unfold pairMem
  rw [List.any_eq_true]
  constructor
  · rintro ⟨p, hp, hc⟩
    simp only [Bool.or_eq_true, Bool.and_eq_true, beq_iff_eq] at hc
    rcases hc with ⟨h1, h2⟩ | ⟨h1, h2⟩
    · left
      have : p = (x, y) := Prod.ext h1 h2
      rwa [this] at hp
    · right
      have : p = (y, x) := Prod.ext h1 h2
      rwa [this] at hp
  · rintro (hp | hp)
    · exact ⟨(x, y), hp, by simp⟩
    · exact ⟨(y, x), hp, by simp⟩

lemma circleSlot_eq_some_iff (swap : Bool) (a : Int) (t : List Int)
    (i j : Nat) (x y : Int) (hx : x ≠ -1) (hy : y ≠ -1) :
    (circleSlot swap a t i j = some (x, y) ∨
      circleSlot swap a t i j = some (y, x)) ↔
      ((circleHome a t i j = x ∧ circleAway t i j = y) ∨
       (circleHome a t i j = y ∧ circleAway t i j = x)) := by
  unfold circleSlot
  by_cases h1 : circleHome a t i j = -1
  · rw [if_pos (by simp [h1])]
    constructor
    · rintro (h | h) <;> cases h
    · rintro (⟨ha, _⟩ | ⟨ha, _⟩)
      · exact absurd (ha.symm.trans h1) hx
      · exact absurd (ha.symm.trans h1) hy
  · by_cases h2 : circleAway t i j = -1
    · rw [if_pos (by simp [h2])]
      constructor
      · rintro (h | h) <;> cases h
      · rintro (⟨_, ha⟩ | ⟨_, ha⟩)
        · exact absurd (ha.symm.trans h2) hy
        · exact absurd (ha.symm.trans h2) hx
    · rw [if_neg (by simp [h1, h2])]
      cases swap <;> simp [Prod.ext_iff] <;> tauto

lemma pairMem_round_iff (swap : Bool) (a : Int) (t : List Int) (i : Nat)
    (x y : Int) (hx : x ≠ -1) (hy : y ≠ -1) :
    pairMem x y (roundPairings swap (a :: t.rotate (i * (t.length - 1)))) =
        true ↔
      ∃ j, j < (t.length + 1) / 2 ∧
        ((circleHome a t i j = x ∧ circleAway t i j = y) ∨
         (circleHome a t i j = y ∧ circleAway t i j = x)) := by
  rw [roundPairings_arr swap a t i, pairMem_iff]
  simp only [List.mem_filterMap, List.mem_range]
  constructor
  · rintro (⟨j, hj, hss⟩ | ⟨j, hj, hss⟩)
    · exact ⟨j, hj, (circleSlot_eq_some_iff swap a t i j x y hx hy).1
        (Or.inl hss)⟩
    · exact ⟨j, hj, (circleSlot_eq_some_iff swap a t i j x y hx hy).1
        (Or.inr hss)⟩
  · rintro ⟨j, hj, hor⟩
    rcases (circleSlot_eq_some_iff swap a t i j x y hx hy).2 hor with h | h
    · exact Or.inl ⟨j, hj, h⟩
    · exact Or.inr ⟨j, hj, h⟩

lemma slotTouch_iff (swap : Bool) (a : Int) (t : List Int) (i j : Nat)
    (x : Int) :
    ((circleSlot swap a t i j).map (touches x)).getD false = true ↔
      (circleHome a t i j ≠ -1 ∧ circleAway t i j ≠ -1 ∧
       (circleHome a t i j = x ∨ circleAway t i j = x)) := by
  unfold circleSlot
  by_cases h1 : circleHome a t i j = -1
  · rw [if_pos (by simp [h1])]
    simp [h1]
  · by_cases h2 : circleAway t i j = -1
    · rw [if_pos (by simp [h2])]
      simp [h1, h2]
    · rw [if_neg (by simp [h1, h2])]
      cases swap
      · simp only [Bool.false_eq_true, if_false, Option.map_some, Option.getD_some]
        unfold touches
        simp [h1, h2]
      · simp only [if_true, Option.map_some, Option.getD_some]
        unfold touches
        simp [h1, h2, or_comm]

lemma circleHome_eq_head {a : Int} {t : List Int} (hnd : (a :: t).Nodup)
    {i j : Nat} (hj : j < (t.length + 1) / 2)
    (h : circleHome a t i j = a) : j = 0 := by
  rcases Nat.eq_zero_or_pos j with rfl | hj1
  · rfl
  · have hm : 1 ≤ t.length := by omega
    have := circleHome_mem_t (a := a) (i := i) hj1 hm
    rw [h] at this
    exact absurd this (List.nodup_cons.1 hnd).1

lemma circleAway_ne_head {a : Int} {t : List Int} (hnd : (a :: t).Nodup)
    (i j : Nat) (hm : 1 ≤ t.length) : circleAway t i j ≠ a := by
  intro h
  have := circleAway_mem (t := t) i j hm
  rw [h] at this
  exact absurd this (List.nodup_cons.1 hnd).1

lemma circleHome_eq_iff {t : List Int} (hnd : t.Nodup) (a : Int) {i j e : Nat}
    (h1 : 1 ≤ j) (he : e < t.length) :
    circleHome a t i j = t.getD e 0 ↔
      (j : ZMod t.length) - 1 - (i : ZMod t.length) = (e : ZMod t.length) := by
  unfold circleHome
  rw [if_neg (by omega)]
  have hm : 1 ≤ t.length := by omega
  have hlt : (j - 1 + i * (t.length - 1)) % t.length < t.length :=
    Nat.mod_lt _ (by omega)
  constructor
  · intro h
    have hidx := getD_inj hnd hlt he h
    rw [← homeIdx_cast t.length i j hm h1]
    exact (zmod_cast_eq_iff t.length _ e he).2 hidx
  · intro h
    rw [← homeIdx_cast t.length i j hm h1] at h
    rw [(zmod_cast_eq_iff t.length _ e he).1 h]

lemma circleAway_eq_iff {t : List Int} (hnd : t.Nodup) {i j e : Nat}
    (hj : j + 1 ≤ t.length) (he : e < t.length) :
    circleAway t i j = t.getD e 0 ↔
      -1 - (j : ZMod t.length) - (i : ZMod t.length) = (e : ZMod t.length) := by
  unfold circleAway
  have hm : 1 ≤ t.length := by omega
  have hlt : (t.length - 1 - j + i * (t.length - 1)) % t.length < t.length :=
    Nat.mod_lt _ (by omega)
  constructor
  · intro h
    have hidx := getD_inj hnd hlt he h
    rw [← awayIdx_cast t.length i j hj]
    exact (zmod_cast_eq_iff t.length _ e he).2 hidx
  · intro h
    rw [← awayIdx_cast t.length i j hj] at h
    rw [(zmod_cast_eq_iff t.length _ e he).1 h]

lemma pairMem_head_iff {a : Int} {t : List Int} (hnd : (a :: t).Nodup)
    (swap : Bool) (i : Nat) {e : Nat} (he : e < t.length)
    (ha : a ≠ -1) (hy : t.getD e 0 ≠ -1) :
    pairMem a (t.getD e 0)
        (roundPairings swap (a :: t.rotate (i * (t.length - 1)))) = true ↔
      -1 - (i : ZMod t.length) = (e : ZMod t.length) := by
  have hm : 1 ≤ t.length := by omega
  rw [pairMem_round_iff swap a t i a (t.getD e 0) ha hy]
  constructor
  · rintro ⟨j, hj, ⟨hh, haw⟩ | ⟨hh, haw⟩⟩
    · have hj0 := circleHome_eq_head hnd hj hh
      subst hj0
      have hz := (circleAway_eq_iff (List.Nodup.of_cons hnd)
        (by omega) he).1 haw
      simpa using hz
    · exact absurd haw (circleAway_ne_head hnd i j hm)
  · intro h
    refine ⟨0, by omega, Or.inl ⟨by simp [circleHome], ?_⟩⟩
    rw [circleAway_eq_iff (List.Nodup.of_cons hnd) (by omega) he]
    simpa using h

lemma pairMem_tt_iff {a : Int} {t : List Int} (hnd : (a :: t).Nodup)
    (swap : Bool) (i : Nat) {e1 e2 : Nat}
    (he1 : e1 < t.length) (he2 : e2 < t.length)
    (hx : t.getD e1 0 ≠ -1) (hy : t.getD e2 0 ≠ -1) :
    pairMem (t.getD e1 0) (t.getD e2 0)
        (roundPairings swap (a :: t.rotate (i * (t.length - 1)))) = true ↔
      ∃ j, 1 ≤ j ∧ j < (t.length + 1) / 2 ∧
        (((j : ZMod t.length) - 1 - (i : ZMod t.length) = (e1 : ZMod t.length) ∧
          -1 - (j : ZMod t.length) - (i : ZMod t.length) = (e2 : ZMod t.length)) ∨
         ((j : ZMod t.length) - 1 - (i : ZMod t.length) = (e2 : ZMod t.length) ∧
          -1 - (j : ZMod t.length) - (i : ZMod t.length) = (e1 : ZMod t.length))) := by
  have hm : 1 ≤ t.length := by omega
  have hndt := List.Nodup.of_cons hnd
  have hat : a ∉ t := (List.nodup_cons.1 hnd).1
  rw [pairMem_round_iff swap a t i _ _ hx hy]
  constructor
  · rintro ⟨j, hj, ⟨hh, haw⟩ | ⟨hh, haw⟩⟩
    · have hj1 : 1 ≤ j := by
        rcases Nat.eq_zero_or_pos j with rfl | h
        · refine absurd (show a ∈ t from ?_) hat
          rw [show a = t.getD e1 0 from by simpa [circleHome] using hh]
          exact getD_mem he1
        · exact h
      exact ⟨j, hj1, hj, Or.inl ⟨(circleHome_eq_iff hndt a hj1 he1).1 hh,
        (circleAway_eq_iff hndt (by omega) he2).1 haw⟩⟩
    · have hj1 : 1 ≤ j := by
        rcases Nat.eq_zero_or_pos j with rfl | h
        · refine absurd (show a ∈ t from ?_) hat
          rw [show a = t.getD e2 0 from by simpa [circleHome] using hh]
          exact getD_mem he2
        · exact h
      exact ⟨j, hj1, hj, Or.inr ⟨(circleHome_eq_iff hndt a hj1 he2).1 hh,
        (circleAway_eq_iff hndt (by omega) he1).1 haw⟩⟩
  · rintro ⟨j, hj1, hj, hor⟩
    refine ⟨j, hj, ?_⟩
    rcases hor with ⟨h1, h2⟩ | ⟨h1, h2⟩
    · exact Or.inl ⟨(circleHome_eq_iff hndt a hj1 he1).2 h1,
        (circleAway_eq_iff hndt (by omega) he2).2 h2⟩
    · exact Or.inr ⟨(circleHome_eq_iff hndt a hj1 he2).2 h1,
        (circleAway_eq_iff hndt (by omega) he1).2 h2⟩

lemma head_round_exists_unique (m : Nat) (hmo : m % 2 = 1) (e : Nat)
    (he : e < m) :
    ∃ i0, i0 < m ∧ (-1 - (i0 : ZMod m) = (e : ZMod m) ∧
      ∀ i, i < m → -1 - (i : ZMod m) = (e : ZMod m) → i = i0) := by
  haveI : NeZero m := ⟨by omega⟩
  refine ⟨(-1 - (e : ZMod m)).val, ZMod.val_lt _, ?_, ?_⟩
  · rw [ZMod.natCast_rightInverse (-1 - (e : ZMod m))]
    ring
  · intro i hi hcond
    have h2 : (i : ZMod m) = (((-1 - (e : ZMod m)).val : Nat) : ZMod m) := by
      rw [ZMod.natCast_rightInverse (-1 - (e : ZMod m))]
      linear_combination -hcond
    exact natCast_inj_of_lt h2 hi (ZMod.val_lt _)

lemma tt_round_exists_unique (m : Nat) (hmo : m % 2 = 1) (e1 e2 : Nat)
    (he1 : e1 < m) (he2 : e2 < m) (hne : e1 ≠ e2) :
    ∃ i0, i0 < m ∧ ((∃ j, 1 ≤ j ∧ j < (m + 1) / 2 ∧
        (((j : ZMod m) - 1 - (i0 : ZMod m) = (e1 : ZMod m) ∧
          -1 - (j : ZMod m) - (i0 : ZMod m) = (e2 : ZMod m)) ∨
         ((j : ZMod m) - 1 - (i0 : ZMod m) = (e2 : ZMod m) ∧
          -1 - (j : ZMod m) - (i0 : ZMod m) = (e1 : ZMod m)))) ∧
      ∀ i, i < m → (∃ j, 1 ≤ j ∧ j < (m + 1) / 2 ∧
        (((j : ZMod m) - 1 - (i : ZMod m) = (e1 : ZMod m) ∧
          -1 - (j : ZMod m) - (i : ZMod m) = (e2 : ZMod m)) ∨
         ((j : ZMod m) - 1 - (i : ZMod m) = (e2 : ZMod m) ∧
          -1 - (j : ZMod m) - (i : ZMod m) = (e1 : ZMod m)))) → i = i0) := by
  haveI : NeZero m := ⟨by omega⟩
  have hm : 1 ≤ m := by omega
  have h2u := two_mul_half m hmo
  have hZne : (((m + 1) / 2 : Nat) : ZMod m) *
      ((e1 : ZMod m) - (e2 : ZMod m)) ≠ 0 := by
    intro h0
    have hd : (e1 : ZMod m) = (e2 : ZMod m) := by
      linear_combination 2 * h0 - ((e1 : ZMod m) - (e2 : ZMod m)) * h2u
    exact hne (natCast_inj_of_lt hd he1 he2)
  have hvsum := val_add_neg_val hm hZne
  have hv0 : ((((m + 1) / 2 : Nat) : ZMod m) *
      ((e1 : ZMod m) - (e2 : ZMod m))).val ≠ 0 :=
    fun h => hZne ((ZMod.val_eq_zero _).1 h)
  have hvlt : ((((m + 1) / 2 : Nat) : ZMod m) *
      ((e1 : ZMod m) - (e2 : ZMod m))).val < m := ZMod.val_lt _
  have hZcast := ZMod.natCast_rightInverse
    ((((m + 1) / 2 : Nat) : ZMod m) * ((e1 : ZMod m) - (e2 : ZMod m)))
  have hZcast' := ZMod.natCast_rightInverse
    (-((((m + 1) / 2 : Nat) : ZMod m) * ((e1 : ZMod m) - (e2 : ZMod m))))
  have hI0cast := ZMod.natCast_rightInverse
    (-((((m + 1) / 2 : Nat) : ZMod m) * ((e1 : ZMod m) + (e2 : ZMod m))) - 1)
  refine ⟨(-((((m + 1) / 2 : Nat) : ZMod m) *
      ((e1 : ZMod m) + (e2 : ZMod m))) - 1).val, ZMod.val_lt _, ?_, ?_⟩
  · by_cases hvle : ((((m + 1) / 2 : Nat) : ZMod m) *
        ((e1 : ZMod m) - (e2 : ZMod m))).val ≤ (m - 1) / 2
    · refine ⟨((((m + 1) / 2 : Nat) : ZMod m) *
        ((e1 : ZMod m) - (e2 : ZMod m))).val, by omega, by omega,
        Or.inl ⟨?_, ?_⟩⟩
      · rw [hZcast, hI0cast]
        linear_combination (e1 : ZMod m) * h2u
      · rw [hZcast, hI0cast]
        linear_combination (e2 : ZMod m) * h2u
    · refine ⟨(-((((m + 1) / 2 : Nat) : ZMod m) *
        ((e1 : ZMod m) - (e2 : ZMod m)))).val, by omega, by omega,
        Or.inr ⟨?_, ?_⟩⟩
      · rw [hZcast', hI0cast]
        linear_combination (e2 : ZMod m) * h2u
      · rw [hZcast', hI0cast]
        linear_combination (e1 : ZMod m) * h2u
  · rintro i hi ⟨j, hj1, hj2, hor⟩
    have hsum : (-2 : ZMod m) - 2 * (i : ZMod m) =
        (e1 : ZMod m) + (e2 : ZMod m) := by
      rcases hor with ⟨hh, ha⟩ | ⟨hh, ha⟩
      · linear_combination hh + ha
      · linear_combination hh + ha
    have h2i : (2 : ZMod m) * (i : ZMod m) =
        2 * (-((((m + 1) / 2 : Nat) : ZMod m) *
          ((e1 : ZMod m) + (e2 : ZMod m))) - 1) := by
      linear_combination (-2 * (((m + 1) / 2 : Nat) : ZMod m)) * hsum +
        (-(2 * (i : ZMod m) + 2)) * h2u
    have hieq := two_mul_inj hmo h2i
    have h2 : (i : ZMod m) = (((-((((m + 1) / 2 : Nat) : ZMod m) *
        ((e1 : ZMod m) + (e2 : ZMod m))) - 1).val : Nat) : ZMod m) := by
      rw [hI0cast]
      exact hieq
    exact natCast_inj_of_lt h2 hi (ZMod.val_lt _)

lemma natCast_mod_self (m A : Nat) :
    ((A % m : Nat) : ZMod m) = ((A : Nat) : ZMod m) := by
  conv_rhs => rw [← Nat.div_add_mod A m]
  push_cast
  rw [ZMod.natCast_self]
  ring

lemma touch_slot_cases {a : Int} {t : List Int} (hnd : (a :: t).Nodup)
    {i j e : Nat} (hj : j < (t.length + 1) / 2) (he : e < t.length)
    (hxa : t.getD e 0 ≠ a)
    (h : circleHome a t i j = t.getD e 0 ∨ circleAway t i j = t.getD e 0) :
    (1 ≤ j ∧ (j : ZMod t.length) - 1 - (i : ZMod t.length) =
        (e : ZMod t.length)) ∨
      -1 - (j : ZMod t.length) - (i : ZMod t.length) = (e : ZMod t.length) := by
  have hm : 1 ≤ t.length := by omega
  have hndt := List.Nodup.of_cons hnd
  rcases h with h | h
  · have hj1 : 1 ≤ j := by
      rcases Nat.eq_zero_or_pos j with rfl | hpos
      · have h0 : a = t.getD e 0 := by simpa [circleHome] using h
        exact absurd h0.symm hxa
      · exact hpos
    exact Or.inl ⟨hj1, (circleHome_eq_iff hndt a hj1 he).1 h⟩
  · exact Or.inr ((circleAway_eq_iff hndt (by omega) he).1 h)

lemma touch_unique {a : Int} {t : List Int} (hnd : (a :: t).Nodup)
    (hmo : t.length % 2 = 1) (i : Nat) (x : Int) {j1 j2 : Nat}
    (hj1 : j1 < (t.length + 1) / 2) (hj2 : j2 < (t.length + 1) / 2)
    (h1 : circleHome a t i j1 = x ∨ circleAway t i j1 = x)
    (h2 : circleHome a t i j2 = x ∨ circleAway t i j2 = x) : j1 = j2 := by
  have hm : 1 ≤ t.length := by omega
  by_cases hxa : x = a
  · subst hxa
    have hz1 : j1 = 0 := by
      rcases h1 with h | h
      · exact circleHome_eq_head hnd hj1 h
      · exact absurd h (circleAway_ne_head hnd i j1 hm)
    have hz2 : j2 = 0 := by
      rcases h2 with h | h
      · exact circleHome_eq_head hnd hj2 h
      · exact absurd h (circleAway_ne_head hnd i j2 hm)
    rw [hz1, hz2]
  · have hxt : x ∈ t := by
      rcases h1 with h | h
      · rcases List.mem_cons.1 (h ▸ circleHome_mem i j1 hm) with h' | h'
        · exact absurd h' hxa
        · exact h'
      · exact h ▸ circleAway_mem i j1 hm
    obtain ⟨e, he, hge⟩ := List.mem_iff_getElem.1 hxt
    have hgd : t.getD e 0 = x := by
      rw [List.getD_eq_getElem _ _ he]; exact hge
    rw [← hgd] at h1 h2
    have hxa' : t.getD e 0 ≠ a := by rw [hgd]; exact hxa
    have tc1 := touch_slot_cases hnd hj1 he hxa' h1
    have tc2 := touch_slot_cases hnd hj2 he hxa' h2
    rcases tc1 with ⟨ha1, hc1⟩ | hc1 <;> rcases tc2 with ⟨ha2, hc2⟩ | hc2
    · exact natCast_inj_of_lt (by linear_combination hc1 - hc2)
        (by omega) (by omega)
    · have hz : (j1 : ZMod t.length) + (j2 : ZMod t.length) = 0 := by
        linear_combination hc1 - hc2
      exact (natCast_add_ne_zero hz (by omega) (by omega)).elim
    · have hz : (j2 : ZMod t.length) + (j1 : ZMod t.length) = 0 := by
        linear_combination hc2 - hc1
      exact (natCast_add_ne_zero hz (by omega) (by omega)).elim
    · exact natCast_inj_of_lt (by linear_combination hc2 - hc1)
        (by omega) (by omega)

lemma slot_exists {a : Int} {t : List Int} (hnd : (a :: t).Nodup)
    (hmo : t.length % 2 = 1) (i : Nat) (x : Int) (hx : x ∈ a :: t) :
    ∃ j, j < (t.length + 1) / 2 ∧
      (circleHome a t i j = x ∨ circleAway t i j = x) := by
  have hm : 1 ≤ t.length := by omega
  haveI : NeZero t.length := ⟨by omega⟩
  have hndt := List.Nodup.of_cons hnd
  rcases List.mem_cons.1 hx with rfl | hxt
  · exact ⟨0, by omega, Or.inl (by simp [circleHome])⟩
  · obtain ⟨e, he, hge⟩ := List.mem_iff_getElem.1 hxt
    have hgd : t.getD e 0 = x := by
      rw [List.getD_eq_getElem _ _ he]; exact hge
    by_cases hle : (-1 - (e : ZMod t.length) - (i : ZMod t.length)).val ≤
        (t.length - 1) / 2
    · refine ⟨(-1 - (e : ZMod t.length) - (i : ZMod t.length)).val,
        by have := ZMod.val_lt (-1 - (e : ZMod t.length) - (i : ZMod t.length)); omega,
        Or.inr ?_⟩
      rw [← hgd]
      rw [circleAway_eq_iff hndt
        (by have := ZMod.val_lt (-1 - (e : ZMod t.length) - (i : ZMod t.length)); omega) he]
      rw [ZMod.natCast_rightInverse (-1 - (e : ZMod t.length) - (i : ZMod t.length))]
      ring
    · have hne0 : -1 - (e : ZMod t.length) - (i : ZMod t.length) ≠ 0 := by
        intro h0
        rw [h0] at hle
        simp [ZMod.val_zero] at hle
      have hvs := val_add_neg_val hm hne0
      have hvlt := ZMod.val_lt (-1 - (e : ZMod t.length) - (i : ZMod t.length))
      have hj1 : 1 ≤ (-(-1 - (e : ZMod t.length) - (i : ZMod t.length))).val := by
        omega
      refine ⟨(-(-1 - (e : ZMod t.length) - (i : ZMod t.length))).val,
        by omega, Or.inl ?_⟩
      rw [← hgd]
      rw [circleHome_eq_iff hndt a hj1 he]
      rw [ZMod.natCast_rightInverse (-(-1 - (e : ZMod t.length) - (i : ZMod t.length)))]
      ring

lemma round_countP_touches (swap : Bool) (a : Int) (t : List Int) (i : Nat)
    (x : Int) :
    (roundPairings swap (a :: t.rotate (i * (t.length - 1)))).countP
        (touches x) =
      (List.range ((t.length + 1) / 2)).countP
        (fun j => ((circleSlot swap a t i j).map (touches x)).getD false) := by
  rw [roundPairings_arr, List.countP_filterMap]

lemma round_touch_le_one {a : Int} {t : List Int} (hnd : (a :: t).Nodup)
    (hmo : t.length % 2 = 1) (swap : Bool) (i : Nat) (x : Int) :
    (roundPairings swap (a :: t.rotate (i * (t.length - 1)))).countP
      (touches x) ≤ 1 := by
  rw [round_countP_touches]
  apply countP_le_one_of_unique (List.nodup_range _)
  intro j1 hj1m j2 hj2m hp1 hp2
  rw [List.mem_range] at hj1m hj2m
  have h1 := (slotTouch_iff swap a t i j1 x).1 hp1
  have h2 := (slotTouch_iff swap a t i j2 x).1 hp2
  exact touch_unique hnd hmo i x hj1m hj2m h1.2.2 h2.2.2

lemma round_touch_eq_one {a : Int} {t : List Int} (hnd : (a :: t).Nodup)
    (hmo : t.length % 2 = 1) (hnone : (-1 : Int) ∉ a :: t) (swap : Bool)
    (i : Nat) (x : Int) (hx : x ∈ a :: t) :
    (roundPairings swap (a :: t.rotate (i * (t.length - 1)))).countP
      (touches x) = 1 := by
  have hm : 1 ≤ t.length := by omega
  rw [round_countP_touches]
  obtain ⟨j0, hj0, hor⟩ := slot_exists hnd hmo i x hx
  apply countP_eq_one_of_unique (List.nodup_range _) (List.mem_range.2 hj0)
  · rw [slotTouch_iff]
    refine ⟨?_, ?_, hor⟩
    · intro h
      exact hnone (by rw [← h]; exact circleHome_mem i j0 hm)
    · intro h
      exact hnone (by rw [← h]; exact List.mem_cons_of_mem a (circleAway_mem i j0 hm))
  · intro j hj hp
    rw [List.mem_range] at hj
    have h := (slotTouch_iff swap a t i j x).1 hp
    exact touch_unique hnd hmo i x hj hj0 h.2.2 hor

lemma round_idle_unique {a : Int} {t : List Int} (hnd : (a :: t).Nodup)
    (hmo : t.length % 2 = 1) (ha : a ≠ -1) (hm1 : (-1 : Int) ∈ t)
    (swap : Bool) (i : Nat) :
    ∃ x0, x0 ∈ a :: t ∧ x0 ≠ -1 ∧
      (roundPairings swap (a :: t.rotate (i * (t.length - 1)))).countP
        (touches x0) = 0 ∧
      ∀ x, x ∈ a :: t → x ≠ -1 →
        (roundPairings swap (a :: t.rotate (i * (t.length - 1)))).countP
          (touches x) = 0 → x = x0 := by
  have hm : 1 ≤ t.length := by omega
  have hndt := List.Nodup.of_cons hnd
  obtain ⟨jm, hjm, horm⟩ := slot_exists hnd hmo i (-1)
    (List.mem_cons_of_mem a hm1)
  have hskip : ∀ j, j < (t.length + 1) / 2 →
      ∀ y, (circleHome a t i j = y ∨ circleAway t i j = y) →
      ((circleSlot swap a t i j).map (touches y)).getD false = true →
      j = jm → False := by
    intro j hj y hory hp hjeq
    have h := (slotTouch_iff swap a t i j y).1 hp
    rw [hjeq] at h
    rcases horm with h' | h'
    · exact h.1 h'
    · exact h.2.1 h'
  by_cases hc : circleHome a t i jm = -1
  · have hjm1 : 1 ≤ jm := by
      rcases Nat.eq_zero_or_pos jm with rfl | hpos
      · exact absurd (by simpa [circleHome] using hc) ha
      · exact hpos
    have hawne : circleAway t i jm ≠ -1 := by
      intro haw
      obtain ⟨em, hem, hgem⟩ := List.mem_iff_getElem.1 hm1
      have hgdm : t.getD em 0 = -1 := by
        rw [List.getD_eq_getElem _ _ hem]; exact hgem
      have hone : circleHome a t i jm = t.getD em 0 := by rw [hc, ← hgdm]
      have htwo : circleAway t i jm = t.getD em 0 := by rw [haw, ← hgdm]
      have hhc := (circleHome_eq_iff hndt a hjm1 hem).1 hone
      have hac := (circleAway_eq_iff hndt
        (show jm + 1 ≤ t.length by omega) hem).1 htwo
      have hjm0 : (jm : ZMod t.length) = ((0 : Nat) : ZMod t.length) :=
        two_mul_inj hmo (by push_cast; linear_combination hhc - hac)
      have := natCast_inj_of_lt hjm0 (show jm < t.length by omega)
        (show 0 < t.length by omega)
      omega
    refine ⟨circleAway t i jm, List.mem_cons_of_mem a (circleAway_mem i jm hm),
      hawne, ?_, ?_⟩
    · rw [round_countP_touches]
      rw [List.countP_eq_zero]
      intro j hj hp
      rw [List.mem_range] at hj
      have h := (slotTouch_iff swap a t i j (circleAway t i jm)).1 hp
      have hjeq := touch_unique hnd hmo i (circleAway t i jm) hj hjm
        h.2.2 (Or.inr rfl)
      exact hskip j hj (circleAway t i jm) h.2.2 hp hjeq
    · intro x hxm hxne hx0
      obtain ⟨jx, hjx, horx⟩ := slot_exists hnd hmo i x hxm
      rw [round_countP_touches, List.countP_eq_zero] at hx0
      have hfalse := hx0 jx (List.mem_range.2 hjx)
      have hnotem : circleHome a t i jx = -1 ∨ circleAway t i jx = -1 := by
        by_contra hno
        push_neg at hno
        exact hfalse ((slotTouch_iff swap a t i jx x).2 ⟨hno.1, hno.2, horx⟩)
      have hjxm : jx = jm := touch_unique hnd hmo i (-1) hjx hjm hnotem horm
      rw [hjxm] at horx
      rcases horx with h' | h'
      · exact absurd (h'.symm.trans hc) hxne
      · exact h'.symm
  · have hawm : circleAway t i jm = -1 := by
      rcases horm with h' | h'
      · exact absurd h' hc
      · exact h'
    refine ⟨circleHome a t i jm, circleHome_mem i jm hm, hc, ?_, ?_⟩
    · rw [round_countP_touches]
      rw [List.countP_eq_zero]
      intro j hj hp
      rw [List.mem_range] at hj
      have h := (slotTouch_iff swap a t i j (circleHome a t i jm)).1 hp
      have hjeq := touch_unique hnd hmo i (circleHome a t i jm) hj hjm
        h.2.2 (Or.inl rfl)
      exact hskip j hj (circleHome a t i jm) h.2.2 hp hjeq
    · intro x hxm hxne hx0
      obtain ⟨jx, hjx, horx⟩ := slot_exists hnd hmo i x hxm
      rw [round_countP_touches, List.countP_eq_zero] at hx0
      have hfalse := hx0 jx (List.mem_range.2 hjx)
      have hnotem : circleHome a t i jx = -1 ∨ circleAway t i jx = -1 := by
        by_contra hno
        push_neg at hno
        exact hfalse ((slotTouch_iff swap a t i jx x).2 ⟨hno.1, hno.2, horx⟩)
      have hjxm : jx = jm := touch_unique hnd hmo i (-1) hjx hjm hnotem horm
      rw [hjxm] at horx
      rcases horx with h' | h'
      · exact h'.symm
      · exact absurd (h'.symm.trans hawm) hxne

lemma round_endpoints {a : Int} {t : List Int} (swap : Bool) (i : Nat)
    {p : Int × Int}
    (hp : p ∈ roundPairings swap (a :: t.rotate (i * (t.length - 1)))) :
    p.1 ∈ a :: t ∧ p.2 ∈ a :: t ∧ p.1 ≠ -1 ∧ p.2 ≠ -1 := by
  rw [roundPairings_arr, List.mem_filterMap] at hp
  obtain ⟨j, hj, hfj⟩ := hp
  rw [List.mem_range] at hj
  have hm : 1 ≤ t.length := by omega
  unfold circleSlot at hfj
  by_cases h1 : circleHome a t i j = -1
  · rw [if_pos (by simp [h1])] at hfj
    cases hfj
  · by_cases h2 : circleAway t i j = -1
    · rw [if_pos (by simp [h2])] at hfj
      cases hfj
    · rw [if_neg (by simp [h1, h2])] at hfj
      cases swap
      · simp only [Bool.false_eq_true, if_false] at hfj
        have hpe := Option.some.inj hfj
        rw [← hpe]
        exact ⟨circleHome_mem i j hm,
          List.mem_cons_of_mem a (circleAway_mem i j hm), h1, h2⟩
      · simp only [if_true] at hfj
        have hpe := Option.some.inj hfj
        rw [← hpe]
        exact ⟨List.mem_cons_of_mem a (circleAway_mem i j hm),
          circleHome_mem i j hm, h2, h1⟩

lemma pairMem_comm (x y : Int) (ps : List (Int × Int)) :
    pairMem x y ps = pairMem y x ps := by
  rw [Bool.eq_iff_iff, pairMem_iff, pairMem_iff]
  tauto

lemma mem_roundRobin {tids : List Int} {r : List (Int × Int)}
    (hr : r ∈ roundRobin tids) :
    ∃ a t i, addBye tids = a :: t ∧ i < t.length ∧
      r = roundPairings (decide (i % 2 = 1))
        (a :: t.rotate (i * (t.length - 1))) := by
  rw [roundRobin_closed, List.mem_map] at hr
  obtain ⟨i, hi, hr⟩ := hr
  rw [List.mem_range] at hi
  rcases hne : addBye tids with _ | ⟨a, t⟩
  · rw [hne] at hi
    simp at hi
  · refine ⟨a, t, i, rfl, ?_, ?_⟩
    · rw [hne] at hi
      simpa using hi
    · rw [← hr, hne, rotIter_cons]

lemma rounds_count_one {a : Int} {t : List Int} {x y : Int} {C : Nat → Prop}
    (hiff : ∀ i, i < t.length →
      (pairMem x y (roundPairings (decide (i % 2 = 1))
        (rotIter i (a :: t))) = true ↔ C i))
    (hex : ∃ i0, i0 < t.length ∧ C i0 ∧
      ∀ i, i < t.length → C i → i = i0) :
    (List.range t.length).countP
      (fun i => pairMem x y (roundPairings (decide (i % 2 = 1))
        (rotIter i (a :: t)))) = 1 := by
  obtain ⟨i0, hi0, hC0, huniq⟩ := hex
  apply countP_eq_one_of_unique (List.nodup_range _) (List.mem_range.2 hi0)
  · exact (hiff i0 hi0).2 hC0
  · intro i hi hp
    rw [List.mem_range] at hi
    exact huniq i hi ((hiff i hi).1 hp)

/-- C2: for every duplicate-free list of participant identifiers not
containing the bye marker `-1`, `_round_robin` produces `n - 1` rounds
(`n` the bye-padded count) following the circle rule - round `i` pairs
position `j` with position `n-1-j`, home/away swapped when `i` is odd,
the non-fixed participants rotating by one between rounds; every pairing
endpoint is a real participant (the bye is filtered out), each unordered
pair of distinct participants appears in exactly one round across the
schedule, each participant is in at most one pairing per round - exactly
one when the participant count is even, with exactly one idle participant
per round when it is odd. -/
theorem auf_c2_round_robin (tids : List Int) (hnd : tids.Nodup)
    (hb : (-1 : Int) ∉ tids) :
    (roundRobin tids).length = (addBye tids).length - 1 ∧
    roundRobin tids = (List.range ((addBye tids).length - 1)).map
      (fun i => roundPairings (decide (i % 2 = 1)) (rotIter i (addBye tids))) ∧
    (∀ r ∈ roundRobin tids, ∀ p ∈ r, p.1 ∈ tids ∧ p.2 ∈ tids) ∧
    (∀ x ∈ tids, ∀ y ∈ tids, x ≠ y →
      (roundRobin tids).countP (pairMem x y) = 1) ∧
    (∀ r ∈ roundRobin tids, ∀ x ∈ tids, r.countP (touches x) ≤ 1) ∧
    (tids.length % 2 = 0 → ∀ r ∈ roundRobin tids, ∀ x ∈ tids,
      r.countP (touches x) = 1) ∧
    (tids.length % 2 = 1 → ∀ r ∈ roundRobin tids,
      tids.countP (fun x => r.countP (touches x) == 0) = 1) := by
  have hndb : (addBye tids).Nodup := addBye_nodup hnd hb
  refine ⟨?_, roundRobin_closed tids, ?_, ?_, ?_, ?_, ?_⟩
  · rw [roundRobin_closed, List.length_map, List.length_range]
  · intro r hr p hp
    obtain ⟨a, t, i, hids, hi, hreq⟩ := mem_roundRobin hr
    rw [hreq] at hp
    have hend := round_endpoints _ i hp
    exact ⟨mem_addBye (hids ▸ hend.1) hend.2.2.1,
      mem_addBye (hids ▸ hend.2.1) hend.2.2.2⟩
  · intro x hx y hy hxy
    have hxne : x ≠ -1 := fun h => hb (h ▸ hx)
    have hyne : y ≠ -1 := fun h => hb (h ▸ hy)
    rcases hids : addBye tids with _ | ⟨a, t⟩
    · have hm := mem_addBye_of_mem hx
      rw [hids] at hm
      cases hm
    · have hndc : (a :: t).Nodup := hids ▸ hndb
      have hmo : t.length % 2 = 1 := by
        have h := addBye_length_even tids
        rw [hids] at h
        simp only [List.length_cons] at h
        omega
      have hxm : x ∈ a :: t := hids ▸ mem_addBye_of_mem hx
      have hym : y ∈ a :: t := hids ▸ mem_addBye_of_mem hy
      rw [roundRobin_closed, hids]
      simp only [List.length_cons, Nat.add_sub_cancel]
      rw [List.countP_map]
      rcases List.mem_cons.1 hxm with rfl | hxt
      · rcases List.mem_cons.1 hym with rfl | hyt
        · exact absurd rfl hxy
        · obtain ⟨e, he, hge⟩ := List.mem_iff_getElem.1 hyt
          have hgd : t.getD e 0 = y := by
            rw [List.getD_eq_getElem _ _ he]; exact hge
          rw [← hgd]
          rw [← hgd] at hyne
          exact rounds_count_one
            (fun i hi => by
              rw [rotIter_cons]
              exact pairMem_head_iff hndc (decide (i % 2 = 1)) i he hxne hyne)
            (head_round_exists_unique t.length hmo e he)
      · rcases List.mem_cons.1 hym with rfl | hyt
        · obtain ⟨e, he, hge⟩ := List.mem_iff_getElem.1 hxt
          have hgd : t.getD e 0 = x := by
            rw [List.getD_eq_getElem _ _ he]; exact hge
          rw [← hgd]
          rw [← hgd] at hxne
          simp only [Function.comp_def]
          simp only [pairMem_comm (t.getD e 0) y]
          exact rounds_count_one
            (fun i hi => by
              rw [rotIter_cons]
              exact pairMem_head_iff hndc (decide (i % 2 = 1)) i he hyne hxne)
            (head_round_exists_unique t.length hmo e he)
        · obtain ⟨e1, he1, hge1⟩ := List.mem_iff_getElem.1 hxt
          obtain ⟨e2, he2, hge2⟩ := List.mem_iff_getElem.1 hyt
          have hgd1 : t.getD e1 0 = x := by
            rw [List.getD_eq_getElem _ _ he1]; exact hge1
          have hgd2 : t.getD e2 0 = y := by
            rw [List.getD_eq_getElem _ _ he2]; exact hge2
          have hne12 : e1 ≠ e2 := by
            intro h
            exact hxy (by rw [← hgd1, ← hgd2, h])
          rw [← hgd1, ← hgd2]
          rw [← hgd1] at hxne
          rw [← hgd2] at hyne
          exact rounds_count_one
            (fun i hi => by
              rw [rotIter_cons]
              exact pairMem_tt_iff hndc (decide (i % 2 = 1)) i he1 he2 hxne hyne)
            (tt_round_exists_unique t.length hmo e1 e2 he1 he2 hne12)
  · intro r hr x hx
    obtain ⟨a, t, i, hids, hi, hreq⟩ := mem_roundRobin hr
    have hndc : (a :: t).Nodup := hids ▸ hndb
    have hmo : t.length % 2 = 1 := by
      have h := addBye_length_even tids
      rw [hids] at h
      simp only [List.length_cons] at h
      omega
    rw [hreq]
    exact round_touch_le_one hndc hmo _ i x
  · intro hEv r hr x hx
    obtain ⟨a, t, i, hids, hi, hreq⟩ := mem_roundRobin hr
    have hndc : (a :: t).Nodup := hids ▸ hndb
    have hmo : t.length % 2 = 1 := by
      have h := addBye_length_even tids
      rw [hids] at h
      simp only [List.length_cons] at h
      omega
    have hab : addBye tids = tids := by
      unfold addBye
      rw [if_neg (by omega)]
    have hnone : (-1 : Int) ∉ a :: t := by
      rw [← hids, hab]
      exact hb
    have hxm : x ∈ a :: t := by
      rw [← hids, hab]
      exact hx
    rw [hreq]
    exact round_touch_eq_one hndc hmo hnone _ i x hxm
  · intro hOdd r hr
    obtain ⟨a, t, i, hids, hi, hreq⟩ := mem_roundRobin hr
    have hndc : (a :: t).Nodup := hids ▸ hndb
    have hmo : t.length % 2 = 1 := by
      have h := addBye_length_even tids
      rw [hids] at h
      simp only [List.length_cons] at h
      omega
    have hab : addBye tids = tids ++ [-1] := by
      unfold addBye
      rw [if_pos hOdd]
    have ham : a ∈ tids := by
      rcases tids with _ | ⟨b, tr⟩
      · simp at hOdd
      · rw [hab] at hids
        simp only [List.cons_append] at hids
        have hba : b = a := (List.cons.injEq _ _ _ _ ▸ hids).1
        rw [← hba]
        exact List.mem_cons_self b tr
    have hane : a ≠ -1 := fun h => hb (h ▸ ham)
    have hm1t : (-1 : Int) ∈ t := by
      have hm1 : (-1 : Int) ∈ a :: t := by
        rw [← hids, hab]
        exact List.mem_append_right _ (by simp)
      rcases List.mem_cons.1 hm1 with h | h
      · exact absurd h.symm hane
      · exact h
    obtain ⟨x0, hx0m, hx0ne, hx0idle, hx0uniq⟩ :=
      round_idle_unique hndc hmo hane hm1t (decide (i % 2 = 1)) i
    have hx0tids : x0 ∈ tids := mem_addBye (hids ▸ hx0m) hx0ne
    rw [hreq]
    apply countP_eq_one_of_unique hnd hx0tids
    · simp [hx0idle]
    · intro z hz hpz
      have hcnt : (roundPairings (decide (i % 2 = 1))
          (a :: t.rotate (i * (t.length - 1)))).countP (touches z) = 0 := by
        simpa using hpz
      exact hx0uniq z (hids ▸ mem_addBye_of_mem hz)
        (fun h => hb (h ▸ hz)) hcnt

/-- C2 witness: the schedule for the concrete five-team list
`[1, 2, 3, 4, 5]` (odd count, exercising the injected bye) satisfies every
conjunct of `auf_c2_round_robin`. -/
theorem auf_c2_round_robin_witness :
    ([1, 2, 3, 4, 5] : List Int).Nodup ∧
    ((-1 : Int) ∉ ([1, 2, 3, 4, 5] : List Int)) ∧
    ((roundRobin [1, 2, 3, 4, 5]).length =
        (addBye [1, 2, 3, 4, 5]).length - 1 ∧
      roundRobin [1, 2, 3, 4, 5] =
        (List.range ((addBye [1, 2, 3, 4, 5]).length - 1)).map
          (fun i => roundPairings (decide (i % 2 = 1))
            (rotIter i (addBye [1, 2, 3, 4, 5]))) ∧
      (∀ r ∈ roundRobin [1, 2, 3, 4, 5], ∀ p ∈ r,
        p.1 ∈ ([1, 2, 3, 4, 5] : List Int) ∧
        p.2 ∈ ([1, 2, 3, 4, 5] : List Int)) ∧
      (∀ x ∈ ([1, 2, 3, 4, 5] : List Int),
        ∀ y ∈ ([1, 2, 3, 4, 5] : List Int), x ≠ y →
        (roundRobin [1, 2, 3, 4, 5]).countP (pairMem x y) = 1) ∧
      (∀ r ∈ roundRobin [1, 2, 3, 4, 5],
        ∀ x ∈ ([1, 2, 3, 4, 5] : List Int), r.countP (touches x) ≤ 1) ∧
      (([1, 2, 3, 4, 5] : List Int).length % 2 = 0 →
        ∀ r ∈ roundRobin [1, 2, 3, 4, 5],
        ∀ x ∈ ([1, 2, 3, 4, 5] : List Int), r.countP (touches x) = 1) ∧
      (([1, 2, 3, 4, 5] : List Int).length % 2 = 1 →
        ∀ r ∈ roundRobin [1, 2, 3, 4, 5],
        ([1, 2, 3, 4, 5] : List Int).countP
          (fun x => r.countP (touches x) == 0) = 1)) :=
  ⟨by decide, by decide,
    auf_c2_round_robin [1, 2, 3, 4, 5] (by decide) (by decide)⟩

end AufSpec
